import Mathlib

/-!
# Memory sizing at boot for BCM47XX (`prom.c`)

A shallow embedding of `prom_init_mem`, `early_tlb_init`,
`bcm47xx_prom_highmem_init` and `prom_init` from `src/prom.c`, followed by
theorems about the embedded functions.

Conventions of the embedding
* `unsigned long` is the 32-bit word of the MIPS32 target: values are `Nat`,
  and every `+`, `-` and `<<` of the source on such a value is reduced modulo
  `2 ^ 32` (`add32`, `sub32`, `shl32`).
* Everything the file uses but does not define (kernel macros, `memcmp`, the
  CPU and bus descriptors, the configuration switches) is a field of
  `Platform`.
* Side effects are explicit: the functions pass a `State` holding the static
  `lowmem`, the translation cache, the `memblock` inventory and the trace of
  calls made to external routines, in program order.
* The two `for` loops are recursive on a bound on the number of passes that
  is computed from the loop variable, so that the functions are total; the
  theorems `prom_init_mem_loop_eq` and `highmem_loop_eq` show that they
  satisfy the equations of the loops of the source, in which no bound
  appears.

The definitions come first, then the theorems: facts about the loops, the
functions in closed form, and the numbered properties of the specification
(`C1`, `C2`, ...), each with an instance on an example board.
-/

namespace Prom

/-! ## Machine words -/

/-- Number of values of an `unsigned long` on the 32-bit target. -/
def WORD : Nat := 2 ^ 32

/-- Addition of two `unsigned long` values: the sum modulo `2 ^ 32`. The
operands are summed second first, so that the sum of an unknown and a constant
is stuck on the unknown instead of being unfolded along the constant;
`add32_eq` restates it in the order of the source. -/
def add32 (a b : Nat) : Nat := (b + a) % WORD

/-- Subtraction of two `unsigned long` values, wrapping below zero: the
complement of `b` to `2 ^ 32` is added to `a`, modulo `2 ^ 32`. As in `add32`
the unknown comes last; `sub32_eq` restates it as a difference. -/
def sub32 (a b : Nat) : Nat := (WORD - b % WORD + a % WORD) % WORD

/-- Left shift of an `unsigned long` value by `k` bits. -/
def shl32 (a k : Nat) : Nat := (a <<< k) % WORD

/-! ## Environment of the file -/

/-- What `prom.c` takes from the rest of the kernel: none of these is defined
in the file itself. -/
structure Platform where
  /-- Address of the function `prom_init`, as the CPU sees it. -/
  prom_init : Nat
  /-- The macro `CPHYSADDR` of `asm/addrspace.h`. -/
  CPHYSADDR : Nat → Nat
  /-- The macro `__pa` of `asm/page.h`. -/
  __pa : Nat → Nat
  /-- Result of `memcmp(s1, s2, n)` on the memory of the board
  (`0` when the two ranges hold the same bytes). -/
  memcmp : Nat → Nat → Nat → Int
  /-- Value of `current_cpu_data.cputype`. -/
  cputype : Nat
  /-- The enumerator `CPU_74K` of `asm/cpu.h`. -/
  CPU_74K : Nat
  /-- Value of `current_cpu_data.tlbsize`. -/
  tlbsize : Int
  /-- Value of the global `bcm47xx_bus_type`. -/
  bcm47xx_bus_type : Nat
  /-- The enumerator `BCM47XX_BUS_TYPE_BCMA` of `bcm47xx.h`. -/
  BCM47XX_BUS_TYPE_BCMA : Nat
  /-- Whether `CONFIG_BCM47XX_BCMA` is defined. -/
  CONFIG_BCM47XX_BCMA : Bool
  /-- Whether `CONFIG_HIGHMEM` is defined. -/
  CONFIG_HIGHMEM : Bool
  /-- The constant `PM_DEFAULT_MASK` of `asm/mipsregs.h`. -/
  PM_DEFAULT_MASK : Nat
  /-- The constant `PM_256M` of `asm/mipsregs.h`. -/
  PM_256M : Nat
  /-- The constant `PAGE_SHIFT` of `asm/page.h`. -/
  PAGE_SHIFT : Nat
  /-- The value `pte_val(pfn_pte(pfn, PAGE_KERNEL))` for a page frame. -/
  pte_val_pfn_pte_PAGE_KERNEL : Nat → Nat
  /-- The value `CKSEG1ADDR(BCM47XX_SERIAL_ADDR)`. -/
  BCM47XX_SERIAL_CKSEG1ADDR : Nat

/-! ## State -/

/-- A `(base, size)` pair handed to `memblock_add`. -/
structure Region where
  base : Nat
  size : Nat
deriving DecidableEq, Repr

/-- One entry written into the translation cache. -/
structure TlbEntry where
  index : Int
  entrylo0 : Nat
  entrylo1 : Nat
  entryhi : Nat
  pagemask : Nat
deriving DecidableEq, Repr

/-- The part of the translation cache the file touches. -/
structure TlbState where
  /-- CP0 register `PageMask`. -/
  pagemask : Nat
  /-- CP0 register `Wired`. -/
  wired : Nat
  /-- The kernel global `temp_tlb_entry`. -/
  temp_tlb_entry : Int
  /-- Entries present in the cache. -/
  entries : List TlbEntry
deriving DecidableEq, Repr

/-- A call to a routine outside the file, with its arguments. -/
inductive Event where
  | memcmp (s1 s2 n : Nat)
  | pr_debug (msg : String)
  | pr_info (msg : String) (arg : List Nat)
  | WARN_ON
  | early_tlb_init
  | add_temporary_entry (entrylo0 entrylo1 entryhi pagemask : Nat)
  | memblock_add (base size : Nat)
  | setup_8250_early_printk_port (base reg_shift timeout : Nat)
deriving DecidableEq, Repr

/-- State passed through the boot code. -/
structure State where
  /-- The static `lowmem` of `prom.c`. -/
  lowmem : Nat
  /-- The translation cache. -/
  tlb : TlbState
  /-- The inventory of physical memory, in order of registration. -/
  memblock : List Region
  /-- Calls made so far, oldest first. -/
  trace : List Event
deriving DecidableEq, Repr

/-- Append one call to the trace. -/
def State.emit (s : State) (e : Event) : State :=
  { s with trace := s.trace ++ [e] }

/-- Append several calls to the trace. -/
def State.emits (s : State) (es : List Event) : State :=
  { s with trace := s.trace ++ es }

/-- Modelled from the spec: `memblock_add` is the external registrar, absent
from the source; it "appends to the external inventory" and never fails. -/
def memblock_add (base size : Nat) (s : State) : State :=
  { s with memblock := s.memblock ++ [⟨base, size⟩],
           trace := s.trace ++ [Event.memblock_add base size] }

/-! ## `prom_init_mem` (lines 56-102) -/

/-- The loop of lines 82-91 run for at most `fuel` tests of its condition,
from the current value of `mem` and the calls `tr` made so far; `max` is the
constant `128 << 20` of line 80. Returns the value of `mem` and the calls
made. -/
def prom_init_mem_steps (P : Platform) (off : Nat) :
    Nat → Nat → List Event → Nat × List Event
  | 0, mem, tr => (mem, tr)
  | fuel + 1, mem, tr =>
    if mem < 128 <<< 20 then
      if add32 off mem ≥ 128 <<< 20 then
        (128 <<< 20, tr ++ [Event.pr_debug "Assume 128MB RAM\n"])
      else if P.memcmp P.prom_init (add32 P.prom_init mem) 32 = 0 then
        (mem, tr ++ [Event.memcmp P.prom_init (add32 P.prom_init mem) 32])
      else
        prom_init_mem_steps P off fuel (add32 mem (1 <<< 20))
          (tr ++ [Event.memcmp P.prom_init (add32 P.prom_init mem) 32])
    else
      (mem, tr)

/-- The loop of lines 82-91, entered with the current value of `mem` and the
calls `tr` made so far. Each pass adds `1 << 20` to `mem` and the loop stops
at `128 << 20`, so `128 << 20 - mem` tests of the condition are more than the
loop can make: `prom_init_mem_loop_eq` shows that this function satisfies the
equation of the source loop, with no bound left in it. Returns the value of
`mem` on leaving the loop and the calls made. -/
@[irreducible]
def prom_init_mem_loop (P : Platform) (off : Nat) (mem : Nat) (tr : List Event) :
    Nat × List Event :=
  prom_init_mem_steps P off (128 <<< 20 - mem) mem tr

/-- The erratum correction of lines 99-100: the value of `mem` passed to
`memblock_add`. -/
def prom_init_mem_trim (P : Platform) (mem : Nat) : Nat :=
  if P.cputype = P.CPU_74K ∧ mem = 128 <<< 20 then sub32 mem 0x1000 else mem

/-- Line 77: the value of `off` in `prom_init_mem`. -/
def prom_init_mem_off (P : Platform) : Nat :=
  P.CPHYSADDR P.prom_init % WORD

/-- The function `prom_init_mem`. -/
def prom_init_mem (P : Platform) (s : State) : State :=
  let off := prom_init_mem_off P
  let r := prom_init_mem_loop P off (1 <<< 20) []
  let s1 := s.emits r.2
  let s2 := { s1 with lowmem := r.1 }
  memblock_add 0 (prom_init_mem_trim P r.1) s2

/-! ## `early_tlb_init` (lines 141-147) -/

/-- The function `early_tlb_init`. The call `local_flush_tlb_all()` is
modelled from the spec: it is absent from the source and "flushes all
existing translation-cache entries". -/
def early_tlb_init (P : Platform) (s : State) : State :=
  { s with tlb := { pagemask := P.PM_DEFAULT_MASK, wired := 0,
                    temp_tlb_entry := P.tlbsize - 1, entries := [] },
           trace := s.trace ++ [Event.early_tlb_init] }

/-! ## `bcm47xx_prom_highmem_init` (lines 149-211) -/

/-- The constant `EXTVBASE` of line 129. -/
def EXTVBASE : Nat := 0xc0000000

/-- The constant `SI_SDRAM_R2` of line 134. -/
def SI_SDRAM_R2 : Nat := 0x80000000

/-- The macro `ENTRYLO` of line 131. -/
def ENTRYLO (P : Platform) (x : Nat) : Nat :=
  (P.pte_val_pfn_pte_PAGE_KERNEL (x >>> P.PAGE_SHIFT) >>> 6) ||| 1

/-- Modelled from the spec: `add_temporary_entry` is a kernel routine absent
from the source; it "installs" the given large-page entry "into the scratch
slot" recorded by `early_tlb_init`. -/
def add_temporary_entry (entrylo0 entrylo1 entryhi pagemask : Nat) (s : State) : State :=
  { s with tlb := { s.tlb with entries :=
                      s.tlb.entries ++ [⟨s.tlb.temp_tlb_entry, entrylo0, entrylo1, entryhi, pagemask⟩] },
           trace := s.trace ++ [Event.add_temporary_entry entrylo0 entrylo1 entryhi pagemask] }

/-- The loop of lines 178-181 run for at most `fuel` tests of its condition,
from the current value of `extmem` and the calls `tr` made so far. Returns
the value of `extmem` and the calls made. -/
def highmem_steps (P : Platform) (off : Nat) :
    Nat → Nat → List Event → Nat × List Event
  | 0, extmem, tr => (extmem, tr)
  | fuel + 1, extmem, tr =>
    if extmem < 512 <<< 20 then
      if P.memcmp P.prom_init (add32 off extmem) 16 = 0 then
        (extmem, tr ++ [Event.memcmp P.prom_init (add32 off extmem) 16])
      else
        highmem_steps P off fuel (shl32 extmem 1)
          (tr ++ [Event.memcmp P.prom_init (add32 off extmem) 16])
    else
      (extmem, tr)

/-- The loop of lines 178-181, entered with the current value of `extmem` and
the calls `tr` made so far. Each pass doubles `extmem` and the loop stops at
`512 << 20`, so from a value that is not zero `512 << 20 - extmem` tests of
the condition are more than the loop can make: `highmem_loop_eq` shows that
this function satisfies the equation of the source loop for every such value
(the source enters the loop at `128 << 20`). Returns the value of `extmem` on
leaving the loop and the calls made. -/
@[irreducible]
def highmem_loop (P : Platform) (off : Nat) (extmem : Nat) (tr : List Event) :
    Nat × List Event :=
  highmem_steps P off (512 <<< 20 - extmem) extmem tr

/-- Line 177: the value of `off` during the search of
`bcm47xx_prom_highmem_init`. -/
def highmem_off (P : Platform) : Nat :=
  add32 EXTVBASE (P.__pa (P.prom_init % WORD))

/-- Lines 177-182: the search through the temporary mapping and the
subtraction of the low memory. Returns the value of `extmem` after line 182
and the calls made. -/
def highmem_size (P : Platform) (mem : Nat) : Nat × List Event :=
  let off := highmem_off P
  let r := highmem_loop P off (128 <<< 20) []
  (sub32 r.1 mem, r.2)

/-- Lines 193-210: correction for the 74K and registration of the region. -/
def highmem_register (P : Platform) (mem extmem : Nat) (s : State) : State :=
  let region_start := add32 SI_SDRAM_R2 (128 <<< 20)
  let adj := decide (P.cputype = P.CPU_74K ∧ mem = 128 <<< 20)
  let extmem1 := if adj then sub32 extmem 0x1000 else extmem
  let region_start1 := if adj then sub32 region_start 0x1000 else region_start
  let s1 := if adj then s.emit (Event.pr_debug "MIPS 74K: adjusting highmem region by -0x1000\n") else s
  let s2 := s1.emit (Event.pr_info "Registering highmem at phys 0x%lx, size %lu MiB\n"
                      [region_start1, extmem1 >>> 20])
  memblock_add region_start1 extmem1 s2

/-- The function `bcm47xx_prom_highmem_init`. -/
def bcm47xx_prom_highmem_init (P : Platform) (s : State) : State :=
  let mem := s.lowmem
  if P.bcm47xx_bus_type ≠ P.BCM47XX_BUS_TYPE_BCMA then
    s.emit Event.WARN_ON
  else if mem ≠ 128 <<< 20 then
    s
  else
    let s1 := early_tlb_init P s
    let s2 := add_temporary_entry (ENTRYLO P SI_SDRAM_R2)
                (ENTRYLO P (add32 SI_SDRAM_R2 (256 <<< 20))) EXTVBASE P.PM_256M s1
    let r := highmem_size P mem
    let s3 := s2.emits r.2
    let extmem := r.1
    if extmem = 0 then
      s3
    else
      let s4 := s3.emit (Event.pr_info "Found %lu MiB of extra memory\n" [extmem >>> 20])
      highmem_register P mem extmem s4

/-! ## `prom_init` (lines 115-125) -/

/-- The function `prom_init`. -/
def prom_init (P : Platform) (s : State) : State :=
  let s1 := prom_init_mem P s
  let s2 := if P.CONFIG_BCM47XX_BCMA && P.CONFIG_HIGHMEM then bcm47xx_prom_highmem_init P s1 else s1
  s2.emit (Event.setup_8250_early_printk_port P.BCM47XX_SERIAL_CKSEG1ADDR 0 0)

/-! ## Vocabulary of the statements -/

/-- The probe of the low-memory sizer at stride `m`: whether the 32-byte
comparison of line 89 finds `prom_init + m` equal to `prom_init`. -/
def low_probe (P : Platform) (m : Nat) : Bool :=
  decide (P.memcmp P.prom_init (add32 P.prom_init m) 32 = 0)

/-- The probe of the high-memory sizer at stride `m`: whether the 16-byte
comparison of line 179 finds `off + m` equal to `prom_init`. -/
def high_probe (P : Platform) (m : Nat) : Bool :=
  decide (P.memcmp P.prom_init (add32 (highmem_off P) m) 16 = 0)

/-- The calls made by the loop of `prom_init_mem`, in order. -/
def low_calls (P : Platform) : List Event :=
  (prom_init_mem_loop P (prom_init_mem_off P) (1 <<< 20) []).2

/-- Whether a call belongs to the temporary mapping or to the search made
through it: `early_tlb_init`, `add_temporary_entry`, or a 16-byte
comparison. -/
def Event.isHighmem : Event → Bool
  | Event.early_tlb_init => true
  | Event.add_temporary_entry _ _ _ _ => true
  | Event.memcmp _ _ n => n == 16
  | _ => false

/-- A board for examples. Its RAM holds `total` bytes and repeats with that
period, both in the unmapped segment at `0x80000000` and behind the temporary
mapping at `0xc0000000`; `memcmp` reports two addresses equal exactly when
they fall on the same byte of RAM. The kernel is loaded so that `prom_init`
lies at physical address `0x3a5d10`. -/
def board (total cputype bus : Nat) (highmem : Bool) : Platform where
  prom_init := 0x803a5d10
  CPHYSADDR := fun a => a % 0x20000000
  __pa := fun a => a - 0x80000000
  memcmp := fun s1 s2 _ => if (s1 % 0x20000000) % total = (s2 % 0x20000000) % total then 0 else 1
  cputype := cputype
  CPU_74K := 74
  tlbsize := 32
  bcm47xx_bus_type := bus
  BCM47XX_BUS_TYPE_BCMA := 1
  CONFIG_BCM47XX_BCMA := true
  CONFIG_HIGHMEM := highmem
  PM_DEFAULT_MASK := 0
  PM_256M := 0x1fffe000
  PAGE_SHIFT := 12
  pte_val_pfn_pte_PAGE_KERNEL := fun pfn => (pfn <<< 12) ||| 0x1f
  BCM47XX_SERIAL_CKSEG1ADDR := 0xb8000300

/-- The state in which the boot code starts: nothing registered, nothing
called, `lowmem` still zero. -/
def boot : State where
  lowmem := 0
  tlb := { pagemask := 0, wired := 0, temp_tlb_entry := 0, entries := [] }
  memblock := []
  trace := []

/-- The example board with the kernel loaded so that `prom_init` lies at the
address `anchor`. -/
def board_at (anchor total cputype bus : Nat) (highmem : Bool) : Platform :=
  { board total cputype bus highmem with prom_init := anchor }

/-- A stride that the loop of `prom_init_mem` can reach: a whole number of
MiB, from 1 MiB to below 128 MiB. -/
def low_stride (m : Nat) : Prop :=
  2 ^ 20 ∣ m ∧ 1 <<< 20 ≤ m ∧ m < 128 <<< 20

/-- A region as the specification wants it: a size that is a positive
multiple of 4096 bytes and a base that is a multiple of 4096. -/
def Region.page_aligned (r : Region) : Prop :=
  0 < r.size ∧ 4096 ∣ r.size ∧ 4096 ∣ r.base

/-! ## The platform name -/

/-- The size of the buffer `bcm47xx_system_type`, `char [20]`. -/
def bcm47xx_system_type_size : Nat := 20

/-- The text the buffer `bcm47xx_system_type` holds before it is formatted. -/
def bcm47xx_system_type : String := "Broadcom BCM47XX"

/-- Modelled from the spec: `snprintf` belongs to the kernel library and is
not part of `prom.c`. The digits that a numeric conversion takes its
characters from: `0123456789ABCDEF` for `%X`, lower case otherwise. -/
def conversion_digits (upper : Bool) : List Char :=
  if upper then "0123456789ABCDEF".data else "0123456789abcdef".data

/-- Modelled from the spec: `snprintf` belongs to the kernel library and is
not part of `prom.c`. The digits of `num` in base `base`, least significant
first: `num % base` is written and `num` divided by `base` until nothing is
left, so that zero has the one digit `0`. The bound is the number of bits of
the widest integer a conversion takes. -/
def conversion_digits_rev (base : Nat) (upper : Bool) : Nat → Nat → List Char
  | 0, _ => []
  | fuel + 1, num =>
    (conversion_digits upper).getD (num % base) '?' ::
      (if num / base = 0 then [] else conversion_digits_rev base upper fuel (num / base))

/-- Modelled from the spec: `snprintf` belongs to the kernel library and is
not part of `prom.c`. A numeric conversion of a value that is not negative:
its digits, most significant first, behind as many `0` (with the flag `0`) or
blanks as the field width asks for. -/
def conversion_number (base : Nat) (upper zero : Bool) (width num : Nat) : List Char :=
  let ds := (conversion_digits_rev base upper 64 num).reverse
  List.replicate (width - ds.length) (if zero then '0' else Char.ofNat 32) ++ ds

/-- Modelled from the spec: `snprintf` belongs to the kernel library and is
not part of `prom.c`. The field width of a conversion specification: the
decimal number the specification starts with, and what follows it. -/
def conversion_width : List Char → Nat → Nat × List Char
  | [], w => (w, [])
  | c :: cs, w =>
    if c.isDigit then conversion_width cs (10 * w + (c.toNat - 48)) else (w, c :: cs)

/-- Modelled from the spec: `snprintf` belongs to the kernel library and is
not part of `prom.c`. The text a format produces for one integer argument
that is not negative: ordinary characters are copied, and `%`, an optional
flag `0`, an optional field width and one of `d`, `X`, `x` stand for the
argument; `%%` stands for `%`. Other specifications end the text. -/
def format_steps : Nat → List Char → Nat → List Char
  | 0, _, _ => []
  | _ + 1, [], _ => []
  | fuel + 1, c :: rest, arg =>
    if c = '%' then
      let zero := decide (rest.head? = some '0')
      let r := conversion_width (if zero then rest.tail else rest) 0
      match r.2 with
      | [] => []
      | k :: rest3 =>
        if k = 'd' then conversion_number 10 false zero r.1 arg ++ format_steps fuel rest3 arg
        else if k = 'X' then conversion_number 16 true zero r.1 arg ++ format_steps fuel rest3 arg
        else if k = 'x' then conversion_number 16 false zero r.1 arg ++ format_steps fuel rest3 arg
        else if k = '%' then '%' :: format_steps fuel rest3 arg
        else []
    else c :: format_steps fuel rest arg

/-- Modelled from the spec: `snprintf` belongs to the kernel library and is
not part of `prom.c`. The whole text of the format `fmt` for the argument
`arg`, before it is cut to the buffer. -/
def format_text (fmt : String) (arg : Nat) : List Char :=
  format_steps (fmt.data.length + 1) fmt.data arg

/-- Modelled from the spec: `snprintf` belongs to the kernel library and is
not part of `prom.c`. `snprintf (buf, size, fmt, arg)` leaves in the buffer
the first `size - 1` characters of the text, followed by the terminator. -/
def snprintf (size : Nat) (fmt : String) (arg : Nat) : String :=
  String.mk ((format_text fmt arg).take (size - 1))

/-- The function `bcm47xx_set_system_type` of lines 46-52, giving the new
content of `bcm47xx_system_type`. The parameter is a `u16`. -/
def bcm47xx_set_system_type (chip_id : Nat) : String :=
  snprintf bcm47xx_system_type_size
    (if chip_id % 2 ^ 16 > 0x9999 then "Broadcom BCM%d" else "Broadcom BCM%04X")
    (chip_id % 2 ^ 16)

/-- The function `get_system_type` of lines 41-44: the content of the
buffer. -/
def get_system_type (buf : String) : String := buf

/-- The upper-case hexadecimal digit of a value below 16. -/
def hex_upper (d : Nat) : Char := (Nat.digitChar d).toUpper

end Prom

namespace Prom

/-! ## The loops satisfy the equations of the source -/

/-- The word addition is the sum of its operands modulo `2 ^ 32`. -/
theorem add32_eq (a b : Nat) : add32 a b = (a + b) % WORD := by
  rw [add32, Nat.add_comm]

/-- The word subtraction is the difference of its operands modulo `2 ^ 32`,
taken after adding `2 ^ 32` so that it does not go below zero. -/
theorem sub32_eq (a b : Nat) : sub32 a b = (a % WORD + WORD - b % WORD) % WORD := by
  unfold sub32 WORD
  omega

/-- One step of the stride stays inside the word. -/
theorem add32_stride (x : Nat) (hx : x < 128 <<< 20) : add32 x (1 <<< 20) = x + 2 ^ 20 := by
  simp only [add32, WORD]
  omega

/-- One bounded pass of the low-memory loop. -/
theorem prom_init_mem_steps_succ (P : Platform) (off fuel mem : Nat) (tr : List Event) :
    prom_init_mem_steps P off (fuel + 1) mem tr =
      if mem < 128 <<< 20 then
        if add32 off mem ≥ 128 <<< 20 then
          (128 <<< 20, tr ++ [Event.pr_debug "Assume 128MB RAM\n"])
        else if P.memcmp P.prom_init (add32 P.prom_init mem) 32 = 0 then
          (mem, tr ++ [Event.memcmp P.prom_init (add32 P.prom_init mem) 32])
        else
          prom_init_mem_steps P off fuel (add32 mem (1 <<< 20))
            (tr ++ [Event.memcmp P.prom_init (add32 P.prom_init mem) 32])
      else
        (mem, tr) := rfl

/-- Any two bounds that are at least `128 << 20 - mem` give the same run of
the low-memory loop. -/
theorem prom_init_mem_steps_fuel (P : Platform) (off : Nat) (f1 f2 mem : Nat) (tr : List Event)
    (h1 : 128 <<< 20 - mem ≤ f1) (h2 : 128 <<< 20 - mem ≤ f2) :
    prom_init_mem_steps P off f1 mem tr = prom_init_mem_steps P off f2 mem tr := by
  induction f1 generalizing f2 mem tr with
  | zero =>
    cases f2 with
    | zero => rfl
    | succ j => rw [prom_init_mem_steps_succ, if_neg (show ¬ mem < 128 <<< 20 by omega)]; rfl
  | succ k ih =>
    cases f2 with
    | zero => rw [prom_init_mem_steps_succ, if_neg (show ¬ mem < 128 <<< 20 by omega)]; rfl
    | succ j =>
      rw [prom_init_mem_steps_succ, prom_init_mem_steps_succ]
      by_cases hx : mem < 128 <<< 20
      · rw [if_pos hx, if_pos hx, add32_stride mem hx]
        rw [ih j (mem + 2 ^ 20) _ (by omega) (by omega)]
      · rw [if_neg hx, if_neg hx]

/-- The equation of the loop of lines 82-91. -/
theorem prom_init_mem_loop_eq (P : Platform) (off mem : Nat) (tr : List Event) :
    prom_init_mem_loop P off mem tr =
      if mem < 128 <<< 20 then
        if add32 off mem ≥ 128 <<< 20 then
          (128 <<< 20, tr ++ [Event.pr_debug "Assume 128MB RAM\n"])
        else if P.memcmp P.prom_init (add32 P.prom_init mem) 32 = 0 then
          (mem, tr ++ [Event.memcmp P.prom_init (add32 P.prom_init mem) 32])
        else
          prom_init_mem_loop P off (add32 mem (1 <<< 20))
            (tr ++ [Event.memcmp P.prom_init (add32 P.prom_init mem) 32])
      else
        (mem, tr) := by
  unfold prom_init_mem_loop
  by_cases hx : mem < 128 <<< 20
  · obtain ⟨k, hk⟩ : ∃ k, 128 <<< 20 - mem = k + 1 := ⟨128 <<< 20 - mem - 1, by omega⟩
    rw [hk, prom_init_mem_steps_succ, if_pos hx, if_pos hx]
    rw [add32_stride mem hx]
    rw [prom_init_mem_steps_fuel P off k (128 <<< 20 - (mem + 2 ^ 20)) (mem + 2 ^ 20) _
      (by omega) (le_refl _)]
  · rw [if_neg hx]
    have h0 : 128 <<< 20 - mem = 0 := by omega
    rw [h0]
    rfl

/-- Induction along the passes of the loop of lines 82-91. -/
theorem prom_init_mem_loop_induct (P : Platform) (off : Nat) (motive : Nat → List Event → Prop)
    (clamp : ∀ x tr, x < 128 <<< 20 → add32 off x ≥ 128 <<< 20 → motive x tr)
    (found : ∀ x tr, x < 128 <<< 20 → ¬ add32 off x ≥ 128 <<< 20 →
      P.memcmp P.prom_init (add32 P.prom_init x) 32 = 0 → motive x tr)
    (next : ∀ x tr, x < 128 <<< 20 → ¬ add32 off x ≥ 128 <<< 20 →
      ¬ P.memcmp P.prom_init (add32 P.prom_init x) 32 = 0 →
      motive (add32 x (1 <<< 20)) (tr ++ [Event.memcmp P.prom_init (add32 P.prom_init x) 32]) →
      motive x tr)
    (done : ∀ x tr, ¬ x < 128 <<< 20 → motive x tr) (mem : Nat) (tr : List Event) :
    motive mem tr := by
  generalize hn : 128 <<< 20 - mem = n
  induction n using Nat.strong_induction_on generalizing mem tr with
  | _ n ih =>
    by_cases hx : mem < 128 <<< 20
    · by_cases hc : add32 off mem ≥ 128 <<< 20
      · exact clamp mem tr hx hc
      · by_cases hm : P.memcmp P.prom_init (add32 P.prom_init mem) 32 = 0
        · exact found mem tr hx hc hm
        · refine next mem tr hx hc hm (ih (128 <<< 20 - add32 mem (1 <<< 20)) ?_ _ _ rfl)
          rw [add32_stride mem hx]
          omega
    · exact done mem tr hx

/-- Doubling `128 << 20` gives `256 << 20`, and doubling that gives
`512 << 20`, both without leaving the word. -/
theorem shl32_strides : shl32 (128 <<< 20) 1 = 256 <<< 20 ∧ shl32 (256 <<< 20) 1 = 512 <<< 20 := by
  constructor <;> simp [shl32, WORD, Nat.shiftLeft_eq]

/-- Doubling a value below `512 << 20` stays inside the word. -/
theorem shl32_double (x : Nat) (hx : x < 512 <<< 20) : shl32 x 1 = 2 * x := by
  simp only [shl32, WORD, Nat.shiftLeft_eq]
  omega

/-- One bounded pass of the high-memory loop. -/
theorem highmem_steps_succ (P : Platform) (off fuel extmem : Nat) (tr : List Event) :
    highmem_steps P off (fuel + 1) extmem tr =
      if extmem < 512 <<< 20 then
        if P.memcmp P.prom_init (add32 off extmem) 16 = 0 then
          (extmem, tr ++ [Event.memcmp P.prom_init (add32 off extmem) 16])
        else
          highmem_steps P off fuel (shl32 extmem 1)
            (tr ++ [Event.memcmp P.prom_init (add32 off extmem) 16])
      else
        (extmem, tr) := rfl

/-- Any two bounds that are at least `512 << 20 - extmem` give the same run
of the high-memory loop from a value that is not zero. -/
theorem highmem_steps_fuel (P : Platform) (off : Nat) (f1 f2 extmem : Nat) (tr : List Event)
    (hpos : 0 < extmem) (h1 : 512 <<< 20 - extmem ≤ f1) (h2 : 512 <<< 20 - extmem ≤ f2) :
    highmem_steps P off f1 extmem tr = highmem_steps P off f2 extmem tr := by
  induction f1 generalizing f2 extmem tr with
  | zero =>
    cases f2 with
    | zero => rfl
    | succ j => rw [highmem_steps_succ, if_neg (show ¬ extmem < 512 <<< 20 by omega)]; rfl
  | succ k ih =>
    cases f2 with
    | zero => rw [highmem_steps_succ, if_neg (show ¬ extmem < 512 <<< 20 by omega)]; rfl
    | succ j =>
      rw [highmem_steps_succ, highmem_steps_succ]
      by_cases hx : extmem < 512 <<< 20
      · rw [if_pos hx, if_pos hx, shl32_double extmem hx]
        rw [ih j (2 * extmem) _ (by omega) (by omega) (by omega)]
      · rw [if_neg hx, if_neg hx]

/-- The equation of the loop of lines 178-181, for a value of `extmem` that
is not zero. -/
theorem highmem_loop_eq (P : Platform) (off extmem : Nat) (tr : List Event) (hpos : 0 < extmem) :
    highmem_loop P off extmem tr =
      if extmem < 512 <<< 20 then
        if P.memcmp P.prom_init (add32 off extmem) 16 = 0 then
          (extmem, tr ++ [Event.memcmp P.prom_init (add32 off extmem) 16])
        else
          highmem_loop P off (shl32 extmem 1)
            (tr ++ [Event.memcmp P.prom_init (add32 off extmem) 16])
      else
        (extmem, tr) := by
  unfold highmem_loop
  by_cases hx : extmem < 512 <<< 20
  · obtain ⟨k, hk⟩ : ∃ k, 512 <<< 20 - extmem = k + 1 := ⟨512 <<< 20 - extmem - 1, by omega⟩
    rw [hk, highmem_steps_succ, if_pos hx, if_pos hx]
    rw [shl32_double extmem hx]
    rw [highmem_steps_fuel P off k (512 <<< 20 - (2 * extmem)) (2 * extmem) _
      (by omega) (by omega) (le_refl _)]
  · rw [if_neg hx]
    have h0 : 512 <<< 20 - extmem = 0 := by omega
    rw [h0]
    rfl

end Prom

namespace Prom

/-! ## Facts about the loop of `prom_init_mem` -/

/-- The value left by the loop lies between the entry value and `128 << 20`,
and is a whole number of MiB when the entry value is. -/
theorem prom_init_mem_loop_range (P : Platform) (off mem : Nat) (tr : List Event)
    (hle : mem ≤ 128 <<< 20) (hdvd : 2 ^ 20 ∣ mem) :
    mem ≤ (prom_init_mem_loop P off mem tr).1 ∧
      (prom_init_mem_loop P off mem tr).1 ≤ 128 <<< 20 ∧
      2 ^ 20 ∣ (prom_init_mem_loop P off mem tr).1 := by
  induction mem, tr using prom_init_mem_loop_induct P off with
  | clamp x tr hx hclamp =>
    rw [prom_init_mem_loop_eq, if_pos hx, if_pos hclamp]
    refine ⟨hle, le_refl _, ?_⟩
    norm_num [Nat.shiftLeft_eq]
  | found x tr hx hclamp hm =>
    rw [prom_init_mem_loop_eq, if_pos hx, if_neg hclamp, if_pos hm]
    exact ⟨le_refl _, hle, hdvd⟩
  | next x tr hx hclamp hm ih =>
    rw [prom_init_mem_loop_eq, if_pos hx, if_neg hclamp, if_neg hm]
    rw [add32_stride x hx] at ih ⊢
    have h1 : x + 2 ^ 20 ≤ 128 <<< 20 := by
      obtain ⟨k, hk⟩ := hdvd
      omega
    have h2 : 2 ^ 20 ∣ x + 2 ^ 20 := Dvd.dvd.add hdvd (dvd_refl _)
    obtain ⟨a, b, c⟩ := ih h1 h2
    exact ⟨by omega, b, c⟩
  | done x tr hx =>
    rw [prom_init_mem_loop_eq, if_neg hx]
    exact ⟨le_refl _, hle, hdvd⟩

/-- Every call added by the loop is either the debug message of the clamp or
a 32-byte comparison of `prom_init` with `prom_init + m`, for a stride `m`
that the loop reached with `off + m` below `128 << 20`. -/
theorem prom_init_mem_loop_events (P : Platform) (off mem : Nat) (tr : List Event) (e : Event)
    (he : e ∈ (prom_init_mem_loop P off mem tr).2) :
    e ∈ tr ∨ e = Event.pr_debug "Assume 128MB RAM\n" ∨
      ∃ m, mem ≤ m ∧ m < 128 <<< 20 ∧ 2 ^ 20 ∣ m - mem ∧ add32 off m < 128 <<< 20 ∧
        e = Event.memcmp P.prom_init (add32 P.prom_init m) 32 := by
  induction mem, tr using prom_init_mem_loop_induct P off with
  | clamp x tr hx hclamp =>
    rw [prom_init_mem_loop_eq, if_pos hx, if_pos hclamp] at he
    rcases List.mem_append.mp he with h | h
    · exact Or.inl h
    · exact Or.inr (Or.inl (by simpa using h))
  | found x tr hx hclamp hm =>
    rw [prom_init_mem_loop_eq, if_pos hx, if_neg hclamp, if_pos hm] at he
    rcases List.mem_append.mp he with h | h
    · exact Or.inl h
    · exact Or.inr (Or.inr ⟨x, le_refl _, hx, by simp, by omega, by simpa using h⟩)
  | next x tr hx hclamp hm ih =>
    rw [prom_init_mem_loop_eq, if_pos hx, if_neg hclamp, if_neg hm] at he
    rw [add32_stride x hx] at ih he
    rcases ih he with h | h | ⟨m, h1, h2, h3, h4, h5⟩
    · rcases List.mem_append.mp h with h | h
      · exact Or.inl h
      · exact Or.inr (Or.inr ⟨x, le_refl _, hx, by simp, by omega, by simpa using h⟩)
    · exact Or.inr (Or.inl h)
    · refine Or.inr (Or.inr ⟨m, by omega, h2, ?_, h4, h5⟩)
      have : m - x = (m - (x + 2 ^ 20)) + 2 ^ 20 := by omega
      rw [this]
      exact Dvd.dvd.add h3 (dvd_refl _)
  | done x tr hx =>
    rw [prom_init_mem_loop_eq, if_neg hx] at he
    exact Or.inl he

/-- The calls already made stay in the trace returned by the loop. -/
theorem prom_init_mem_loop_keeps (P : Platform) (off mem : Nat) (tr : List Event) (e : Event)
    (he : e ∈ tr) : e ∈ (prom_init_mem_loop P off mem tr).2 := by
  induction mem, tr using prom_init_mem_loop_induct P off with
  | clamp x tr hx hclamp =>
    rw [prom_init_mem_loop_eq, if_pos hx, if_pos hclamp]
    exact List.mem_append_left _ he
  | found x tr hx hclamp hm =>
    rw [prom_init_mem_loop_eq, if_pos hx, if_neg hclamp, if_pos hm]
    exact List.mem_append_left _ he
  | next x tr hx hclamp hm ih =>
    rw [prom_init_mem_loop_eq, if_pos hx, if_neg hclamp, if_neg hm]
    exact ih (List.mem_append_left _ he)
  | done x tr hx =>
    rw [prom_init_mem_loop_eq, if_neg hx]
    exact he

/-- When no comparison in the trace returned by the loop succeeded, the loop
leaves `128 << 20`. -/
theorem prom_init_mem_loop_no_match (P : Platform) (off mem : Nat) (tr : List Event)
    (hle : mem ≤ 128 <<< 20) (hdvd : 2 ^ 20 ∣ mem)
    (hno : ∀ s1 s2 n, Event.memcmp s1 s2 n ∈ (prom_init_mem_loop P off mem tr).2 →
      P.memcmp s1 s2 n ≠ 0) :
    (prom_init_mem_loop P off mem tr).1 = 128 <<< 20 := by
  induction mem, tr using prom_init_mem_loop_induct P off with
  | clamp x tr hx hclamp =>
    rw [prom_init_mem_loop_eq, if_pos hx, if_pos hclamp]
  | found x tr hx hclamp hm =>
    rw [prom_init_mem_loop_eq, if_pos hx, if_neg hclamp, if_pos hm] at hno
    exact absurd hm (hno _ _ _ (by simp))
  | next x tr hx hclamp hm ih =>
    rw [prom_init_mem_loop_eq, if_pos hx, if_neg hclamp, if_neg hm] at hno ⊢
    rw [add32_stride x hx] at ih hno ⊢
    have h1 : x + 2 ^ 20 ≤ 128 <<< 20 := by
      obtain ⟨k, hk⟩ := hdvd
      omega
    exact ih h1 (Dvd.dvd.add hdvd (dvd_refl _)) hno
  | done x tr hx =>
    rw [prom_init_mem_loop_eq, if_neg hx]
    omega

/-- When the strides before `mem + n MiB` neither clamp nor match, and that
stride does not clamp and matches, the loop leaves `mem + n MiB`. -/
theorem prom_init_mem_loop_first_match (P : Platform) (off : Nat) (n mem : Nat)
    (tr : List Event) (hlt : mem + n * 2 ^ 20 < 128 <<< 20)
    (hbefore : ∀ i, i < n → add32 off (mem + i * 2 ^ 20) < 128 <<< 20 ∧
      P.memcmp P.prom_init (add32 P.prom_init (mem + i * 2 ^ 20)) 32 ≠ 0)
    (hguard : add32 off (mem + n * 2 ^ 20) < 128 <<< 20)
    (hmatch : P.memcmp P.prom_init (add32 P.prom_init (mem + n * 2 ^ 20)) 32 = 0) :
    (prom_init_mem_loop P off mem tr).1 = mem + n * 2 ^ 20 := by
  induction n generalizing mem tr with
  | zero =>
    simp only [Nat.zero_mul, Nat.add_zero] at hlt hguard hmatch ⊢
    rw [prom_init_mem_loop_eq, if_pos hlt, if_neg (by omega), if_pos hmatch]
  | succ n ih =>
    have h0 := hbefore 0 (Nat.succ_pos n)
    simp only [Nat.zero_mul, Nat.add_zero] at h0
    have hx : mem < 128 <<< 20 := by omega
    rw [prom_init_mem_loop_eq, if_pos hx, if_neg (by omega), if_neg h0.2, add32_stride mem hx]
    have e1 : ∀ i, mem + 2 ^ 20 + i * 2 ^ 20 = mem + (i + 1) * 2 ^ 20 := by
      intro i
      ring
    rw [ih (mem + 2 ^ 20) _ (by rw [e1]; exact hlt)
      (fun i hi => by rw [e1]; exact hbefore (i + 1) (by omega))
      (by rw [e1]; exact hguard) (by rw [e1]; exact hmatch), e1]

/-- When the first stride already clamps, the loop leaves `128 << 20` at
once. -/
theorem prom_init_mem_loop_clamp (P : Platform) (off mem : Nat) (tr : List Event)
    (hx : mem < 128 <<< 20) (hclamp : add32 off mem ≥ 128 <<< 20) :
    prom_init_mem_loop P off mem tr = (128 <<< 20, tr ++ [Event.pr_debug "Assume 128MB RAM\n"]) := by
  rw [prom_init_mem_loop_eq, if_pos hx, if_pos hclamp]

end Prom

namespace Prom

/-! ## Facts about the loop of `bcm47xx_prom_highmem_init` -/

/-- The loop entered at `256 << 20` makes one comparison. -/
theorem highmem_loop_256 (P : Platform) (off : Nat) (tr : List Event) :
    highmem_loop P off (256 <<< 20) tr =
      (if P.memcmp P.prom_init (add32 off (256 <<< 20)) 16 = 0 then 256 <<< 20 else 512 <<< 20,
        tr ++ [Event.memcmp P.prom_init (add32 off (256 <<< 20)) 16]) := by
  rw [highmem_loop_eq P off _ tr (by omega), if_pos (by omega)]
  split
  · rfl
  · rw [shl32_strides.2, highmem_loop_eq P off _ _ (by omega), if_neg (by omega)]

/-- The loop as the source enters it, at `128 << 20`: it makes one or two
comparisons and leaves `128 << 20`, `256 << 20` or `512 << 20`. -/
theorem highmem_loop_128 (P : Platform) (off : Nat) (tr : List Event) :
    highmem_loop P off (128 <<< 20) tr =
      if P.memcmp P.prom_init (add32 off (128 <<< 20)) 16 = 0 then
        (128 <<< 20, tr ++ [Event.memcmp P.prom_init (add32 off (128 <<< 20)) 16])
      else
        (if P.memcmp P.prom_init (add32 off (256 <<< 20)) 16 = 0 then 256 <<< 20 else 512 <<< 20,
          tr ++ [Event.memcmp P.prom_init (add32 off (128 <<< 20)) 16,
                 Event.memcmp P.prom_init (add32 off (256 <<< 20)) 16]) := by
  rw [highmem_loop_eq P off _ tr (by omega), if_pos (by omega)]
  split
  · rfl
  · rw [shl32_strides.1, highmem_loop_256, List.append_assoc]
    rfl

end Prom

namespace Prom

/-! ## The functions in closed form -/

/-- The constants of the source as plain numbers. -/
theorem shift_consts : (1 <<< 20 : Nat) = 1048576 ∧ (128 <<< 20 : Nat) = 134217728 ∧
    (256 <<< 20 : Nat) = 268435456 ∧ (512 <<< 20 : Nat) = 536870912 :=
  ⟨rfl, rfl, rfl, rfl⟩

/-- What `prom_init_mem` stores in `lowmem` is the value left by its loop. -/
theorem prom_init_mem_lowmem (P : Platform) (s : State) :
    (prom_init_mem P s).lowmem =
      (prom_init_mem_loop P (prom_init_mem_off P) (1 <<< 20) []).1 := rfl

/-- The function `prom_init_mem` adds one region, of base 0. -/
theorem prom_init_mem_memblock (P : Platform) (s : State) :
    (prom_init_mem P s).memblock =
      s.memblock ++ [⟨0, prom_init_mem_trim P (prom_init_mem P s).lowmem⟩] := rfl

/-- The function `prom_init_mem` leaves the translation cache alone. -/
theorem prom_init_mem_tlb (P : Platform) (s : State) : (prom_init_mem P s).tlb = s.tlb := rfl

/-- The calls of `prom_init_mem`: those of its loop, then `memblock_add`. -/
theorem prom_init_mem_trace (P : Platform) (s : State) :
    (prom_init_mem P s).trace =
      s.trace ++ (low_calls P ++
        [Event.memblock_add 0 (prom_init_mem_trim P (prom_init_mem P s).lowmem)]) := by
  simp [prom_init_mem, memblock_add, State.emits, low_calls]

/-- The low-memory size is a whole number of MiB between 1 and 128. -/
theorem prom_init_mem_lowmem_range (P : Platform) (s : State) :
    1 <<< 20 ≤ (prom_init_mem P s).lowmem ∧ (prom_init_mem P s).lowmem ≤ 128 <<< 20 ∧
      2 ^ 20 ∣ (prom_init_mem P s).lowmem := by
  rw [prom_init_mem_lowmem]
  exact prom_init_mem_loop_range P _ (1 <<< 20) [] (by omega) (by norm_num [Nat.shiftLeft_eq])

/-- The correction of lines 99-100 in natural numbers. -/
theorem prom_init_mem_trim_eq (P : Platform) (mem : Nat) :
    prom_init_mem_trim P mem =
      if P.cputype = P.CPU_74K ∧ mem = 128 <<< 20 then mem - 4096 else mem := by
  unfold prom_init_mem_trim
  split
  · rename_i h
    rw [h.2]
    rfl
  · rfl

/-- The subtractions that the high-memory sizer can make. -/
theorem sub32_consts : sub32 (128 <<< 20) (128 <<< 20) = 0 ∧
    sub32 (256 <<< 20) (128 <<< 20) = 128 <<< 20 ∧
    sub32 (512 <<< 20) (128 <<< 20) = 384 * 2 ^ 20 := by
  simp only [sub32, WORD, shift_consts]
  norm_num

/-- The search of lines 177-182 when low memory is `128 << 20`: it stops at
the first of the strides 128 MiB and 256 MiB that matches, else at 512 MiB,
and then subtracts 128 MiB. -/
theorem highmem_size_128 (P : Platform) :
    highmem_size P (128 <<< 20) =
      if high_probe P (128 <<< 20) = true then
        (0, [Event.memcmp P.prom_init (add32 (highmem_off P) (128 <<< 20)) 16])
      else
        (if high_probe P (256 <<< 20) = true then 128 <<< 20 else 384 * 2 ^ 20,
          [Event.memcmp P.prom_init (add32 (highmem_off P) (128 <<< 20)) 16,
           Event.memcmp P.prom_init (add32 (highmem_off P) (256 <<< 20)) 16]) := by
  unfold highmem_size
  simp only [highmem_loop_128, high_probe, decide_eq_true_eq, List.nil_append]
  by_cases h1 : P.memcmp P.prom_init (add32 (highmem_off P) (128 <<< 20)) 16 = 0
  · rw [if_pos h1, if_pos h1, sub32_consts.1]
  · rw [if_neg h1, if_neg h1]
    by_cases h2 : P.memcmp P.prom_init (add32 (highmem_off P) (256 <<< 20)) 16 = 0
    · rw [if_pos h2, if_pos h2, sub32_consts.2.1]
    · rw [if_neg h2, if_neg h2, sub32_consts.2.2]

/-- The value of `extmem` after line 182 is 0, 128 MiB or 384 MiB. -/
theorem highmem_size_128_cases (P : Platform) :
    (highmem_size P (128 <<< 20)).1 =
      if high_probe P (128 <<< 20) = true then 0
      else if high_probe P (256 <<< 20) = true then 128 <<< 20 else 384 * 2 ^ 20 := by
  rw [highmem_size_128]
  by_cases h1 : high_probe P (128 <<< 20) = true
  · rw [if_pos h1, if_pos h1]
  · rw [if_neg h1, if_neg h1]

/-- The region and the state that `highmem_register` leaves when the 74K
correction applies. -/
theorem highmem_register_74k (P : Platform) (mem extmem : Nat) (s : State)
    (h : P.cputype = P.CPU_74K ∧ mem = 128 <<< 20) :
    highmem_register P mem extmem s =
      { lowmem := s.lowmem
        tlb := s.tlb
        memblock := s.memblock ++
          [⟨sub32 (add32 SI_SDRAM_R2 (128 <<< 20)) 0x1000, sub32 extmem 0x1000⟩]
        trace := s.trace ++
          [Event.pr_debug "MIPS 74K: adjusting highmem region by -0x1000\n",
           Event.pr_info "Registering highmem at phys 0x%lx, size %lu MiB\n"
             [sub32 (add32 SI_SDRAM_R2 (128 <<< 20)) 0x1000, sub32 extmem 0x1000 >>> 20],
           Event.memblock_add (sub32 (add32 SI_SDRAM_R2 (128 <<< 20)) 0x1000)
             (sub32 extmem 0x1000)] } := by
  unfold highmem_register
  simp only [decide_eq_true h, if_true, memblock_add, State.emit, List.append_assoc,
    List.singleton_append, List.cons_append, List.nil_append]

/-- The region and the state that `highmem_register` leaves when the 74K
correction does not apply. -/
theorem highmem_register_other (P : Platform) (mem extmem : Nat) (s : State)
    (h : ¬ (P.cputype = P.CPU_74K ∧ mem = 128 <<< 20)) :
    highmem_register P mem extmem s =
      { lowmem := s.lowmem
        tlb := s.tlb
        memblock := s.memblock ++ [⟨add32 SI_SDRAM_R2 (128 <<< 20), extmem⟩]
        trace := s.trace ++
          [Event.pr_info "Registering highmem at phys 0x%lx, size %lu MiB\n"
             [add32 SI_SDRAM_R2 (128 <<< 20), extmem >>> 20],
           Event.memblock_add (add32 SI_SDRAM_R2 (128 <<< 20)) extmem] } := by
  unfold highmem_register
  simp only [decide_eq_false h, Bool.false_eq_true, if_false, memblock_add, State.emit,
    List.append_assoc, List.singleton_append, List.cons_append, List.nil_append]

/-- The base of the high region before and after the 74K correction. -/
theorem region_start_consts : add32 SI_SDRAM_R2 (128 <<< 20) = 0x88000000 ∧
    sub32 (add32 SI_SDRAM_R2 (128 <<< 20)) 0x1000 = 0x88000000 - 4096 := by
  simp only [sub32, add32, WORD, SI_SDRAM_R2, shift_consts]
  norm_num

/-- The function `bcm47xx_prom_highmem_init` with its local definitions
expanded. -/
theorem highmem_init_unfold (P : Platform) (s : State) :
    bcm47xx_prom_highmem_init P s =
      if P.bcm47xx_bus_type ≠ P.BCM47XX_BUS_TYPE_BCMA then s.emit Event.WARN_ON
      else if s.lowmem ≠ 128 <<< 20 then s
      else if (highmem_size P s.lowmem).1 = 0 then
        (add_temporary_entry (ENTRYLO P SI_SDRAM_R2)
          (ENTRYLO P (add32 SI_SDRAM_R2 (256 <<< 20))) EXTVBASE P.PM_256M
          (early_tlb_init P s)).emits (highmem_size P s.lowmem).2
      else
        highmem_register P s.lowmem (highmem_size P s.lowmem).1
          (((add_temporary_entry (ENTRYLO P SI_SDRAM_R2)
            (ENTRYLO P (add32 SI_SDRAM_R2 (256 <<< 20))) EXTVBASE P.PM_256M
            (early_tlb_init P s)).emits (highmem_size P s.lowmem).2).emit
            (Event.pr_info "Found %lu MiB of extra memory\n"
              [(highmem_size P s.lowmem).1 >>> 20])) := rfl

/-- The function `bcm47xx_prom_highmem_init` when one of its two guards
fails: nothing happens but the warning on a wrong bus type. -/
theorem highmem_init_skip (P : Platform) (s : State)
    (h : P.bcm47xx_bus_type ≠ P.BCM47XX_BUS_TYPE_BCMA ∨ s.lowmem ≠ 128 <<< 20) :
    bcm47xx_prom_highmem_init P s =
      if P.bcm47xx_bus_type ≠ P.BCM47XX_BUS_TYPE_BCMA then s.emit Event.WARN_ON else s := by
  rw [highmem_init_unfold]
  by_cases hb : P.bcm47xx_bus_type ≠ P.BCM47XX_BUS_TYPE_BCMA
  · rw [if_pos hb, if_pos hb]
  · rw [if_neg hb, if_neg hb, if_pos (h.resolve_left hb)]

/-- The function `bcm47xx_prom_highmem_init` when both guards pass: the
temporary mapping is installed, the search runs, and a region is registered
unless the search found nothing. -/
theorem highmem_init_run (P : Platform) (s : State)
    (hbus : P.bcm47xx_bus_type = P.BCM47XX_BUS_TYPE_BCMA) (hlow : s.lowmem = 128 <<< 20) :
    bcm47xx_prom_highmem_init P s =
      if (highmem_size P (128 <<< 20)).1 = 0 then
        (add_temporary_entry (ENTRYLO P SI_SDRAM_R2)
          (ENTRYLO P (add32 SI_SDRAM_R2 (256 <<< 20))) EXTVBASE P.PM_256M
          (early_tlb_init P s)).emits (highmem_size P (128 <<< 20)).2
      else
        highmem_register P (128 <<< 20) (highmem_size P (128 <<< 20)).1
          (((add_temporary_entry (ENTRYLO P SI_SDRAM_R2)
            (ENTRYLO P (add32 SI_SDRAM_R2 (256 <<< 20))) EXTVBASE P.PM_256M
            (early_tlb_init P s)).emits (highmem_size P (128 <<< 20)).2).emit
            (Event.pr_info "Found %lu MiB of extra memory\n"
              [(highmem_size P (128 <<< 20)).1 >>> 20])) := by
  rw [highmem_init_unfold, if_neg (not_not.mpr hbus), if_neg (not_not.mpr hlow), hlow]

/-- The regions added by `bcm47xx_prom_highmem_init` when both guards pass:
none when the search found nothing, else one, moved down and shortened by one
page on the 74K. -/
theorem highmem_init_memblock (P : Platform) (s : State)
    (hbus : P.bcm47xx_bus_type = P.BCM47XX_BUS_TYPE_BCMA) (hlow : s.lowmem = 128 <<< 20) :
    (bcm47xx_prom_highmem_init P s).memblock =
      s.memblock ++
        if (highmem_size P (128 <<< 20)).1 = 0 then []
        else [if P.cputype = P.CPU_74K
          then ⟨0x88000000 - 4096, sub32 (highmem_size P (128 <<< 20)).1 0x1000⟩
          else ⟨0x88000000, (highmem_size P (128 <<< 20)).1⟩] := by
  rw [highmem_init_run P s hbus hlow]
  by_cases h0 : (highmem_size P (128 <<< 20)).1 = 0
  · rw [if_pos h0, if_pos h0, List.append_nil]
    rfl
  · rw [if_neg h0, if_neg h0]
    by_cases hc : P.cputype = P.CPU_74K
    · rw [highmem_register_74k P _ _ _ ⟨hc, rfl⟩, if_pos hc, region_start_consts.2]
      rfl
    · rw [highmem_register_other P _ _ _ (fun h => hc h.1), if_neg hc, region_start_consts.1]
      rfl

/-- The function `prom_init` with its local definitions expanded. -/
theorem prom_init_unfold (P : Platform) (s : State) :
    prom_init P s =
      (if (P.CONFIG_BCM47XX_BCMA && P.CONFIG_HIGHMEM) = true
        then bcm47xx_prom_highmem_init P (prom_init_mem P s)
        else prom_init_mem P s).emit
        (Event.setup_8250_early_printk_port P.BCM47XX_SERIAL_CKSEG1ADDR 0 0) := rfl

end Prom

namespace Prom

/-! ## The low-memory sizer -/

/-- On a board where the probe matches exactly at the multiples of `n` MiB,
for any `n` from 1 to 64, and whose anchor lies inside the first `n` MiB, the
loop of `prom_init_mem` leaves `n` MiB. -/
theorem prom_init_mem_loop_installed (P : Platform) (n : Nat) (h1 : 1 ≤ n) (h64 : n ≤ 64)
    (horacle : ∀ m, 0 < m → m < 128 <<< 20 → (low_probe P m = true ↔ n * 2 ^ 20 ∣ m))
    (hoff : prom_init_mem_off P < n * 2 ^ 20) :
    (prom_init_mem_loop P (prom_init_mem_off P) (1 <<< 20) []).1 = n * 2 ^ 20 := by
  have key := prom_init_mem_loop_first_match P (prom_init_mem_off P) (n - 1) (1 <<< 20) []
    (by omega)
    (fun i hi => by
      constructor
      · simp only [add32, WORD]
        omega
      · have hm := horacle (1 <<< 20 + i * 2 ^ 20) (by omega) (by omega)
        simp only [low_probe, decide_eq_true_eq] at hm
        intro h0
        have hd := Nat.le_of_dvd (by omega) (hm.mp h0)
        omega)
    (by
      simp only [add32, WORD]
      omega)
    (by
      have hm := horacle (1 <<< 20 + (n - 1) * 2 ^ 20) (by omega) (by omega)
      simp only [low_probe, decide_eq_true_eq] at hm
      refine hm.mpr ⟨1, ?_⟩
      omega)
  rw [key]
  omega

/-- C1. Model memory by a probe oracle in which the 32-byte comparison at
stride `m` succeeds exactly when `m` is a multiple of the installed size. Then
for every installed size of 1, 2, 4, 8, 16, 32 or 64 MiB and every anchor
offset inside the installed bank (`off < size`), the loop of `prom_init_mem`
leaves `lowmem` equal to exactly that size. The oracle only has to behave so
on the strides `0 < m < 128 MiB`. -/
theorem C1_low_sizer_finds_installed_size (P : Platform) (s : State) (n : Nat)
    (hn : n ∈ [1, 2, 4, 8, 16, 32, 64])
    (horacle : ∀ m, 0 < m → m < 128 <<< 20 → (low_probe P m = true ↔ n * 2 ^ 20 ∣ m))
    (hoff : prom_init_mem_off P < n * 2 ^ 20) :
    (prom_init_mem P s).lowmem = n * 2 ^ 20 := by
  have hb : 1 ≤ n ∧ n ≤ 64 := by
    simp only [List.mem_cons, List.mem_singleton, List.not_mem_nil, or_false] at hn
    omega
  rw [prom_init_mem_lowmem]
  exact prom_init_mem_loop_installed P n hb.1 hb.2 horacle hoff

/-- The anchor of the example board lies at offset `0x3a5d10` of the window. -/
theorem board_off (total cputype bus : Nat) (highmem : Bool) :
    prom_init_mem_off (board total cputype bus highmem) = 0x3a5d10 := by
  simp only [prom_init_mem_off, board, WORD]
  norm_num

/-- C1 at a board with 4 MiB of RAM, whose anchor lies at `0x3a5d10`: the
probe matches exactly at the multiples of 4 MiB and `lowmem` is 4 MiB. -/
theorem C1_low_sizer_finds_installed_size_witness :
    (∀ m, 0 < m → m < 128 <<< 20 →
      (low_probe (board (4 * 2 ^ 20) 74 1 true) m = true ↔ 4 * 2 ^ 20 ∣ m)) ∧
    prom_init_mem_off (board (4 * 2 ^ 20) 74 1 true) < 4 * 2 ^ 20 ∧
    (prom_init_mem (board (4 * 2 ^ 20) 74 1 true) boot).lowmem = 4 * 2 ^ 20 :=
  have horacle : ∀ m, 0 < m → m < 128 <<< 20 →
      (low_probe (board (4 * 2 ^ 20) 74 1 true) m = true ↔ 4 * 2 ^ 20 ∣ m) := by
    intro m _ _
    unfold low_probe
    rw [decide_eq_true_eq]
    simp only [board]
    unfold add32 WORD
    constructor
    · intro h
      by_contra hd
      rw [if_neg (by omega)] at h
      exact absurd h (by decide)
    · intro hd
      rw [if_pos (by omega)]
  have hoff : prom_init_mem_off (board (4 * 2 ^ 20) 74 1 true) < 4 * 2 ^ 20 := by
    rw [board_off]
    norm_num
  ⟨horacle, hoff,
    C1_low_sizer_finds_installed_size (board (4 * 2 ^ 20) 74 1 true) boot 4 (by simp)
      horacle hoff⟩

/-- C2. For every anchor offset, if the probe matches at no stride that the
sizer tries (every 32-byte comparison made by the loop finds a difference),
`lowmem` is exactly 128 MiB = 134217728 bytes, whether the loop ends by
exhausting the strides or by the clamp on the anchor offset. -/
theorem C2_low_sizer_fallback (P : Platform) (s : State)
    (hno : ∀ s1 s2 n, Event.memcmp s1 s2 n ∈ low_calls P → P.memcmp s1 s2 n ≠ 0) :
    (prom_init_mem P s).lowmem = 128 <<< 20 ∧ (prom_init_mem P s).lowmem = 134217728 := by
  have h : (prom_init_mem P s).lowmem = 128 <<< 20 := by
    rw [prom_init_mem_lowmem]
    exact prom_init_mem_loop_no_match P _ (1 <<< 20) [] (by omega)
      (by norm_num [Nat.shiftLeft_eq]) hno
  exact ⟨h, h.trans shift_consts.2.1⟩

/-- Every call made by the loop of `prom_init_mem` is either the debug
message of the clamp or a 32-byte comparison of `prom_init` with
`prom_init + m`, for a stride `m` of whole MiB, from 1 MiB to below 128 MiB,
that keeps `off + m` below `128 << 20`. -/
theorem low_calls_events (P : Platform) (e : Event) (he : e ∈ low_calls P) :
    e = Event.pr_debug "Assume 128MB RAM\n" ∨
      ∃ m, 1 <<< 20 ≤ m ∧ m < 128 <<< 20 ∧ 2 ^ 20 ∣ m ∧
        add32 (prom_init_mem_off P) m < 128 <<< 20 ∧
        e = Event.memcmp P.prom_init (add32 P.prom_init m) 32 := by
  rcases prom_init_mem_loop_events P _ _ _ e he with h | h | ⟨m, h1, h2, h3, h4, h5⟩
  · exact absurd h (List.not_mem_nil _)
  · exact Or.inl h
  · refine Or.inr ⟨m, h1, h2, ?_, h4, h5⟩
    have e1 : m = (m - 1 <<< 20) + 2 ^ 20 := by omega
    rw [e1]
    exact Dvd.dvd.add h3 (dvd_refl _)

/-- On the example board with at least 128 MiB of RAM, the comparison at a
stride that keeps the anchor below 128 MiB finds a difference. -/
theorem board_low_probe (total cputype bus : Nat) (highmem : Bool) (m : Nat)
    (ht : 128 <<< 20 ≤ total) (h0 : 0 < m) (hm : m + 0x3a5d10 < 128 <<< 20) :
    (board total cputype bus highmem).memcmp (board total cputype bus highmem).prom_init
      (add32 (board total cputype bus highmem).prom_init m) 32 ≠ 0 := by
  simp only [board]
  unfold add32 WORD
  have e1 : (2151308560 : Nat) % 536870912 % total = 3824912 :=
    Nat.mod_eq_of_lt (by omega)
  have e2 : (m + 2151308560) % 2 ^ 32 % 536870912 % total = m + 3824912 := by
    have : (m + 2151308560) % 2 ^ 32 % 536870912 = m + 3824912 := by omega
    rw [this]
    exact Nat.mod_eq_of_lt (by omega)
  rw [e1, e2, if_neg (by omega)]
  decide

/-- On the example board with at least 128 MiB of RAM, no comparison made by
the loop of `prom_init_mem` succeeds. -/
theorem board_low_calls (total cputype bus : Nat) (highmem : Bool) (ht : 128 <<< 20 ≤ total) :
    ∀ s1 s2 n, Event.memcmp s1 s2 n ∈ low_calls (board total cputype bus highmem) →
      (board total cputype bus highmem).memcmp s1 s2 n ≠ 0 := by
  intro s1 s2 n h
  rcases low_calls_events _ _ h with h | ⟨m, h1, _, _, h4, h5⟩
  · exact Event.noConfusion h
  · rw [board_off] at h4
    unfold add32 WORD at h4
    obtain ⟨e1, e2, e3⟩ := Event.memcmp.inj h5
    rw [e1, e2, e3]
    exact board_low_probe total cputype bus highmem m ht (by omega) (by omega)

/-- C2 at a board with 512 MiB of RAM: no comparison succeeds below 128 MiB
and `lowmem` is 128 MiB. -/
theorem C2_low_sizer_fallback_witness :
    (prom_init_mem (board (512 * 2 ^ 20) 74 1 true) boot).lowmem = 128 <<< 20 ∧
    (prom_init_mem (board (512 * 2 ^ 20) 74 1 true) boot).lowmem = 134217728 :=
  C2_low_sizer_fallback (board (512 * 2 ^ 20) 74 1 true) boot
    (board_low_calls (512 * 2 ^ 20) 74 1 true (by norm_num [Nat.shiftLeft_eq]))

end Prom

namespace Prom

/-! ## The high-memory sizer -/

/-- A probe that matches exactly at the multiples of 384 MiB matches at
neither of the strides 128 MiB and 256 MiB. -/
theorem high_probe_384 (P : Platform)
    (horacle : ∀ m, 0 < m → m < 512 <<< 20 → (high_probe P m = true ↔ 384 * 2 ^ 20 ∣ m)) :
    high_probe P (128 <<< 20) = false ∧ high_probe P (256 <<< 20) = false := by
  constructor
  · have h := horacle (128 <<< 20) (by omega) (by omega)
    cases hp : high_probe P (128 <<< 20)
    · rfl
    · have hd := Nat.le_of_dvd (by omega) (h.mp hp)
      omega
  · have h := horacle (256 <<< 20) (by omega) (by omega)
    cases hp : high_probe P (256 <<< 20)
    · rfl
    · have hd := Nat.le_of_dvd (by omega) (h.mp hp)
      omega

/-- When the probe matches at neither 128 MiB nor 256 MiB, the search stops
at 512 MiB and the value of `extmem` after line 182 is 384 MiB. -/
theorem highmem_size_no_match (P : Platform) (h128 : high_probe P (128 <<< 20) = false)
    (h256 : high_probe P (256 <<< 20) = false) :
    (highmem_size P (128 <<< 20)).1 = 384 * 2 ^ 20 := by
  rw [highmem_size_128_cases, if_neg (by rw [h128]; decide), if_neg (by rw [h256]; decide)]

/-- When the search found something, `bcm47xx_prom_highmem_init` reports the
size found, in MiB. -/
theorem highmem_init_found (P : Platform) (s : State)
    (hbus : P.bcm47xx_bus_type = P.BCM47XX_BUS_TYPE_BCMA) (hlow : s.lowmem = 128 <<< 20)
    (h0 : (highmem_size P (128 <<< 20)).1 ≠ 0) :
    Event.pr_info "Found %lu MiB of extra memory\n" [(highmem_size P (128 <<< 20)).1 >>> 20] ∈
      (bcm47xx_prom_highmem_init P s).trace := by
  rw [highmem_init_run P s hbus hlow, if_neg h0]
  by_cases hc : P.cputype = P.CPU_74K
  · rw [highmem_register_74k P _ _ _ ⟨hc, rfl⟩]
    exact List.mem_append_left _ (List.mem_append_right _ (List.mem_singleton_self _))
  · rw [highmem_register_other P _ _ _ (fun h => hc h.1)]
    exact List.mem_append_left _ (List.mem_append_right _ (List.mem_singleton_self _))

/-- The address of the anchor behind the temporary mapping, on the example
board. -/
theorem board_highmem_off (total cputype bus : Nat) (highmem : Bool) :
    highmem_off (board total cputype bus highmem) = 0xc03a5d10 := by
  unfold highmem_off
  simp only [board]
  unfold add32 EXTVBASE WORD
  norm_num

/-- The high-memory probe on the example board, as a comparison of offsets in
RAM. -/
theorem board_high_probe (total cputype bus : Nat) (highmem : Bool) (m : Nat) :
    high_probe (board total cputype bus highmem) m =
      decide (3824912 % total = (m + 3225050384) % 4294967296 % 536870912 % total) := by
  unfold high_probe
  rw [board_highmem_off]
  simp only [board]
  unfold add32 WORD
  norm_num

/-- The example board with 384 MiB of RAM: through the temporary mapping the
probe matches exactly at the multiples of 384 MiB. -/
theorem board_high_probe_384 (cputype bus : Nat) (highmem : Bool) (m : Nat)
    (hm : m < 512 <<< 20) :
    high_probe (board (384 * 2 ^ 20) cputype bus highmem) m = true ↔ 384 * 2 ^ 20 ∣ m := by
  rw [board_high_probe, decide_eq_true_eq]
  have hx : (m + 3225050384) % 4294967296 = m + 3225050384 := Nat.mod_eq_of_lt (by omega)
  rw [hx]
  norm_num
  by_cases h1 : m + 3824912 < 536870912
  · have hy : (m + 3225050384) % 536870912 = m + 3824912 := by omega
    rw [hy]
    by_cases h2 : m + 3824912 < 402653184
    · rw [Nat.mod_eq_of_lt h2]
      constructor
      · intro h
        have : m = 0 := by omega
        rw [this]
        exact dvd_zero _
      · intro hd
        rcases Nat.eq_zero_or_pos m with h0 | h0
        · omega
        · have := Nat.le_of_dvd h0 hd
          omega
    · have hz : (m + 3824912) % 402653184 = m + 3824912 - 402653184 := by omega
      rw [hz]
      constructor
      · intro h
        have : m = 402653184 := by omega
        rw [this]
      · intro hd
        obtain ⟨k, hk⟩ := hd
        have hk1 : k = 1 := by omega
        omega
  · have hy : (m + 3225050384) % 536870912 = m + 3824912 - 536870912 := by omega
    rw [hy]
    have hz : (m + 3824912 - 536870912) % 402653184 = m + 3824912 - 536870912 :=
      Nat.mod_eq_of_lt (by omega)
    rw [hz]
    constructor
    · intro h
      omega
    · intro hd
      obtain ⟨k, hk⟩ := hd
      have hk1 : k = 1 := by omega
      omega

/-- C3, as the code has it. With low memory = 128 MiB on the BCMA bus and a
probe oracle simulating a 256 MiB extended bank (384 MiB installed in total,
so that the probe matches exactly at the multiples of 384 MiB), the value of
`extmem` after the subtraction of the low-memory size is 384 MiB, the 512 MiB
ceiling less the low memory, and this is the size that
`bcm47xx_prom_highmem_init` reports. -/
theorem C3_high_sizer_384_total (P : Platform) (s : State)
    (hbus : P.bcm47xx_bus_type = P.BCM47XX_BUS_TYPE_BCMA) (hlow : s.lowmem = 128 <<< 20)
    (horacle : ∀ m, 0 < m → m < 512 <<< 20 → (high_probe P m = true ↔ 384 * 2 ^ 20 ∣ m)) :
    (highmem_size P s.lowmem).1 = 384 * 2 ^ 20 ∧
      Event.pr_info "Found %lu MiB of extra memory\n" [384] ∈
        (bcm47xx_prom_highmem_init P s).trace := by
  have hsz := highmem_size_no_match P (high_probe_384 P horacle).1 (high_probe_384 P horacle).2
  have hf := highmem_init_found P s hbus hlow (by rw [hsz]; norm_num)
  rw [hsz] at hf
  rw [hlow]
  exact ⟨hsz, hf⟩

end Prom

namespace Prom

/-- When no comparison made by the loop of `prom_init_mem` succeeds, `lowmem`
is 128 MiB. -/
theorem prom_init_mem_lowmem_no_match (P : Platform) (s : State)
    (hno : ∀ s1 s2 n, Event.memcmp s1 s2 n ∈ low_calls P → P.memcmp s1 s2 n ≠ 0) :
    (prom_init_mem P s).lowmem = 128 <<< 20 := by
  rw [prom_init_mem_lowmem]
  exact prom_init_mem_loop_no_match P _ (1 <<< 20) [] (by omega)
    (by norm_num [Nat.shiftLeft_eq]) hno

/-- On the example board with at least 128 MiB of RAM, `prom_init_mem` sizes
the low memory at 128 MiB. -/
theorem board_lowmem_128 (total cputype bus : Nat) (highmem : Bool) (s : State)
    (ht : 128 <<< 20 ≤ total) :
    (prom_init_mem (board total cputype bus highmem) s).lowmem = 128 <<< 20 :=
  prom_init_mem_lowmem_no_match _ s (board_low_calls total cputype bus highmem ht)

/-- Taking one page off a size of at least one page, inside the word. -/
theorem sub32_page (x : Nat) (h1 : 4096 ≤ x) (h2 : x < 2 ^ 32) : sub32 x 0x1000 = x - 4096 := by
  unfold sub32 WORD
  omega

/-- C3 at a board with 384 MiB of RAM (a 256 MiB extended bank): after
`prom_init_mem` the low memory is 128 MiB, the bus is BCMA, the probe through
the temporary mapping matches exactly at the multiples of 384 MiB, and the
size computed and reported is 384 MiB. -/
theorem C3_high_sizer_384_total_witness :
    (board (384 * 2 ^ 20) 74 1 true).bcm47xx_bus_type =
      (board (384 * 2 ^ 20) 74 1 true).BCM47XX_BUS_TYPE_BCMA ∧
    (prom_init_mem (board (384 * 2 ^ 20) 74 1 true) boot).lowmem = 128 <<< 20 ∧
    (highmem_size (board (384 * 2 ^ 20) 74 1 true)
      (prom_init_mem (board (384 * 2 ^ 20) 74 1 true) boot).lowmem).1 = 384 * 2 ^ 20 ∧
    Event.pr_info "Found %lu MiB of extra memory\n" [384] ∈
      (bcm47xx_prom_highmem_init (board (384 * 2 ^ 20) 74 1 true)
        (prom_init_mem (board (384 * 2 ^ 20) 74 1 true) boot)).trace :=
  ⟨rfl, board_lowmem_128 _ 74 1 true boot (by norm_num [Nat.shiftLeft_eq]),
    C3_high_sizer_384_total (board (384 * 2 ^ 20) 74 1 true)
      (prom_init_mem (board (384 * 2 ^ 20) 74 1 true) boot) rfl
      (board_lowmem_128 _ 74 1 true boot (by norm_num [Nat.shiftLeft_eq]))
      (fun m _ hm => board_high_probe_384 74 1 true m hm)⟩

/-- C3 as the spec states it fails. On the board with 384 MiB of RAM (a
256 MiB extended bank), with low memory = 128 MiB on the BCMA bus and the
probe matching exactly at the multiples of 384 MiB, the size computed by the
high-memory sizer is 384 MiB and not 256 MiB. -/
theorem C3_counterexample :
    (board (384 * 2 ^ 20) 74 1 true).bcm47xx_bus_type =
      (board (384 * 2 ^ 20) 74 1 true).BCM47XX_BUS_TYPE_BCMA ∧
    (prom_init_mem (board (384 * 2 ^ 20) 74 1 true) boot).lowmem = 128 <<< 20 ∧
    (∀ m, 0 < m → m < 512 <<< 20 →
      (high_probe (board (384 * 2 ^ 20) 74 1 true) m = true ↔ 384 * 2 ^ 20 ∣ m)) ∧
    (highmem_size (board (384 * 2 ^ 20) 74 1 true)
      (prom_init_mem (board (384 * 2 ^ 20) 74 1 true) boot).lowmem).1 = 384 * 2 ^ 20 ∧
    (highmem_size (board (384 * 2 ^ 20) 74 1 true)
      (prom_init_mem (board (384 * 2 ^ 20) 74 1 true) boot).lowmem).1 ≠ 256 * 2 ^ 20 := by
  have hlow := board_lowmem_128 (384 * 2 ^ 20) 74 1 true boot (by norm_num [Nat.shiftLeft_eq])
  have horacle : ∀ m, 0 < m → m < 512 <<< 20 →
      (high_probe (board (384 * 2 ^ 20) 74 1 true) m = true ↔ 384 * 2 ^ 20 ∣ m) :=
    fun m _ hm => board_high_probe_384 74 1 true m hm
  have hsz := highmem_size_no_match _ (high_probe_384 _ horacle).1 (high_probe_384 _ horacle).2
  refine ⟨rfl, hlow, horacle, ?_, ?_⟩
  · rw [hlow]
    exact hsz
  · rw [hlow, hsz]
    norm_num

/-- C4. With low memory = 128 MiB on the BCMA bus, if the probe through the
temporary mapping matches at the first stride (128 MiB), the extra-memory size
computed is 0 and `bcm47xx_prom_highmem_init` returns without registering any
region: the inventory is unchanged and the only calls made are those that
install the mapping and the one comparison. No assumption is made on the CPU
type. -/
theorem C4_high_sizer_no_extended_bank (P : Platform) (s : State)
    (hbus : P.bcm47xx_bus_type = P.BCM47XX_BUS_TYPE_BCMA) (hlow : s.lowmem = 128 <<< 20)
    (hmatch : high_probe P (128 <<< 20) = true) :
    (highmem_size P s.lowmem).1 = 0 ∧
      (bcm47xx_prom_highmem_init P s).memblock = s.memblock ∧
      (bcm47xx_prom_highmem_init P s).trace =
        s.trace ++ [Event.early_tlb_init,
          Event.add_temporary_entry (ENTRYLO P SI_SDRAM_R2)
            (ENTRYLO P (add32 SI_SDRAM_R2 (256 <<< 20))) EXTVBASE P.PM_256M,
          Event.memcmp P.prom_init (add32 (highmem_off P) (128 <<< 20)) 16] := by
  have hsz : highmem_size P (128 <<< 20) =
      (0, [Event.memcmp P.prom_init (add32 (highmem_off P) (128 <<< 20)) 16]) := by
    rw [highmem_size_128, if_pos hmatch]
  rw [highmem_init_run P s hbus hlow, hlow, hsz, if_pos rfl]
  refine ⟨rfl, rfl, ?_⟩
  simp only [State.emits, add_temporary_entry, early_tlb_init, List.append_assoc,
    List.singleton_append, List.cons_append, List.nil_append]

/-- C4 at a board with 128 MiB of RAM and no more: the low memory is sized at
128 MiB, the probe through the temporary mapping matches at 128 MiB, and
nothing is registered by `bcm47xx_prom_highmem_init`. -/
theorem C4_high_sizer_no_extended_bank_witness :
    (prom_init_mem (board (128 * 2 ^ 20) 74 1 true) boot).lowmem = 128 <<< 20 ∧
    high_probe (board (128 * 2 ^ 20) 74 1 true) (128 <<< 20) = true ∧
    (bcm47xx_prom_highmem_init (board (128 * 2 ^ 20) 74 1 true)
      (prom_init_mem (board (128 * 2 ^ 20) 74 1 true) boot)).memblock =
      (prom_init_mem (board (128 * 2 ^ 20) 74 1 true) boot).memblock :=
  have hlow := board_lowmem_128 (128 * 2 ^ 20) 74 1 true boot (by norm_num [Nat.shiftLeft_eq])
  have hmatch : high_probe (board (128 * 2 ^ 20) 74 1 true) (128 <<< 20) = true := by
    rw [board_high_probe]
    norm_num [Nat.shiftLeft_eq]
  ⟨hlow, hmatch,
    (C4_high_sizer_no_extended_bank (board (128 * 2 ^ 20) 74 1 true)
      (prom_init_mem (board (128 * 2 ^ 20) 74 1 true) boot) rfl hlow hmatch).2.1⟩

end Prom

namespace Prom

/-- The example board with 512 MiB of RAM: through the temporary mapping the
probe matches at no stride below 512 MiB. -/
theorem board_high_probe_512 (cputype bus : Nat) (highmem : Bool) (m : Nat)
    (h0 : 0 < m) (hm : m < 512 <<< 20) :
    high_probe (board (512 * 2 ^ 20) cputype bus highmem) m = false := by
  rw [board_high_probe, decide_eq_false_iff_not]
  norm_num
  omega

/-- When the probe matches at neither 128 MiB nor 256 MiB, a region of
384 MiB is registered at `0x88000000`, moved down and shortened by one page
on the 74K. -/
theorem highmem_init_memblock_no_match (P : Platform) (s : State)
    (hbus : P.bcm47xx_bus_type = P.BCM47XX_BUS_TYPE_BCMA) (hlow : s.lowmem = 128 <<< 20)
    (h128 : high_probe P (128 <<< 20) = false) (h256 : high_probe P (256 <<< 20) = false) :
    (bcm47xx_prom_highmem_init P s).memblock =
      s.memblock ++ [if P.cputype = P.CPU_74K
        then ⟨0x88000000 - 4096, 384 * 2 ^ 20 - 4096⟩
        else ⟨0x88000000, 384 * 2 ^ 20⟩] := by
  rw [highmem_init_memblock P s hbus hlow, highmem_size_no_match P h128 h256,
    if_neg (by norm_num), sub32_page _ (by norm_num) (by norm_num)]

/-- C5, as the code has it. With low memory = 128 MiB on the BCMA bus, if the
probe matches at none of the strides tried below 512 MiB (128 MiB and
256 MiB), the search stops at the 512 MiB ceiling and that is taken as the
total: the high-memory sizer yields 384 MiB and one high region is
registered, `{0x88000000, 384 MiB}`, with base and size each one page less on
the 74K. -/
theorem C5_high_sizer_ceiling (P : Platform) (s : State)
    (hbus : P.bcm47xx_bus_type = P.BCM47XX_BUS_TYPE_BCMA) (hlow : s.lowmem = 128 <<< 20)
    (hno : ∀ m, m ∈ [128 <<< 20, 256 <<< 20] → high_probe P m = false) :
    (highmem_size P s.lowmem).1 = 384 * 2 ^ 20 ∧
      (bcm47xx_prom_highmem_init P s).memblock =
        s.memblock ++ [if P.cputype = P.CPU_74K
          then ⟨0x88000000 - 4096, 384 * 2 ^ 20 - 4096⟩
          else ⟨0x88000000, 384 * 2 ^ 20⟩] := by
  have h128 := hno (128 <<< 20) (List.mem_cons_self _ _)
  have h256 := hno (256 <<< 20) (List.mem_cons_of_mem _ (List.mem_singleton_self _))
  rw [hlow]
  exact ⟨highmem_size_no_match P h128 h256,
    highmem_init_memblock_no_match P s hbus hlow h128 h256⟩

/-- C5 at a board with 512 MiB of RAM and a CPU other than the 74K: the probe
matches at neither 128 MiB nor 256 MiB, the sizer yields 384 MiB and the
region `{0x88000000, 384 MiB}` is registered. -/
theorem C5_high_sizer_ceiling_witness :
    (prom_init_mem (board (512 * 2 ^ 20) 24 1 true) boot).lowmem = 128 <<< 20 ∧
    (∀ m, m ∈ [128 <<< 20, 256 <<< 20] →
      high_probe (board (512 * 2 ^ 20) 24 1 true) m = false) ∧
    (highmem_size (board (512 * 2 ^ 20) 24 1 true)
      (prom_init_mem (board (512 * 2 ^ 20) 24 1 true) boot).lowmem).1 = 384 * 2 ^ 20 :=
  have hlow := board_lowmem_128 (512 * 2 ^ 20) 24 1 true boot (by norm_num [Nat.shiftLeft_eq])
  have hno : ∀ m, m ∈ [128 <<< 20, 256 <<< 20] →
      high_probe (board (512 * 2 ^ 20) 24 1 true) m = false := by
    intro m hm
    have hm2 : m = 128 <<< 20 ∨ m = 256 <<< 20 := by
      simpa only [List.mem_cons, List.mem_singleton, List.not_mem_nil, or_false] using hm
    exact board_high_probe_512 24 1 true m (by omega) (by omega)
  ⟨hlow, hno,
    (C5_high_sizer_ceiling (board (512 * 2 ^ 20) 24 1 true)
      (prom_init_mem (board (512 * 2 ^ 20) 24 1 true) boot) rfl hlow hno).1⟩

/-- C5 as the spec states it fails. On the board with 512 MiB of RAM and a
CPU other than the 74K, with low memory = 128 MiB on the BCMA bus and a probe
that matches at no stride below 512 MiB, the high-memory sizer yields 384 MiB,
not 0, and `bcm47xx_prom_highmem_init` adds the region `{0x88000000, 384 MiB}`
to the inventory. -/
theorem C5_counterexample :
    (board (512 * 2 ^ 20) 24 1 true).bcm47xx_bus_type =
      (board (512 * 2 ^ 20) 24 1 true).BCM47XX_BUS_TYPE_BCMA ∧
    (prom_init_mem (board (512 * 2 ^ 20) 24 1 true) boot).lowmem = 128 <<< 20 ∧
    (∀ m, 0 < m → m < 512 <<< 20 → high_probe (board (512 * 2 ^ 20) 24 1 true) m = false) ∧
    (highmem_size (board (512 * 2 ^ 20) 24 1 true)
      (prom_init_mem (board (512 * 2 ^ 20) 24 1 true) boot).lowmem).1 ≠ 0 ∧
    (bcm47xx_prom_highmem_init (board (512 * 2 ^ 20) 24 1 true)
      (prom_init_mem (board (512 * 2 ^ 20) 24 1 true) boot)).memblock =
      (prom_init_mem (board (512 * 2 ^ 20) 24 1 true) boot).memblock ++
        [⟨0x88000000, 384 * 2 ^ 20⟩] := by
  have hlow := board_lowmem_128 (512 * 2 ^ 20) 24 1 true boot (by norm_num [Nat.shiftLeft_eq])
  have h128 := board_high_probe_512 24 1 true (128 <<< 20) (by omega) (by omega)
  have h256 := board_high_probe_512 24 1 true (256 <<< 20) (by omega) (by omega)
  refine ⟨rfl, hlow, fun m h0 hm => board_high_probe_512 24 1 true m h0 hm, ?_, ?_⟩
  · rw [hlow, highmem_size_no_match _ h128 h256]
    norm_num
  · rw [highmem_init_memblock_no_match _ _ rfl hlow h128 h256]
    rfl

/-! ## The erratum correction and the registration of the low region -/

/-- C6. Taking `correct(size, cpu) = size - 4096` if the CPU is the affected
74K and `size` = 128 MiB, else `size`, as `prom_init_mem` implements it
(`prom_init_mem_trim`): for every size and CPU type,
`correct(correct(size, cpu), cpu) = correct(size, cpu)`, and
`correct(size, cpu) = size` whenever `size` is not 128 MiB or the CPU is not
the affected variant. -/
theorem C6_erratum_correction_idempotent (P : Platform) (size : Nat) :
    prom_init_mem_trim P size =
        (if P.cputype = P.CPU_74K ∧ size = 128 <<< 20 then size - 4096 else size) ∧
      prom_init_mem_trim P (prom_init_mem_trim P size) = prom_init_mem_trim P size ∧
      (size ≠ 128 <<< 20 ∨ P.cputype ≠ P.CPU_74K → prom_init_mem_trim P size = size) := by
  refine ⟨prom_init_mem_trim_eq P size, ?_, ?_⟩
  · rw [prom_init_mem_trim_eq P size]
    by_cases h : P.cputype = P.CPU_74K ∧ size = 128 <<< 20
    · rw [if_pos h, prom_init_mem_trim_eq, if_neg]
      intro h2
      omega
    · rw [if_neg h, prom_init_mem_trim_eq, if_neg h]
  · intro h
    rw [prom_init_mem_trim_eq, if_neg]
    intro h2
    rcases h with h | h
    · exact h h2.2
    · exact h h2.1

/-- C6 at the 74K with 128 MiB: the correction gives 128 MiB - 4096 and
applying it again changes nothing. -/
theorem C6_erratum_correction_idempotent_witness :
    prom_init_mem_trim (board (128 * 2 ^ 20) 74 1 true) (128 <<< 20) =
        (if (board (128 * 2 ^ 20) 74 1 true).cputype = (board (128 * 2 ^ 20) 74 1 true).CPU_74K ∧
            128 <<< 20 = 128 <<< 20 then 128 <<< 20 - 4096 else 128 <<< 20) ∧
      prom_init_mem_trim (board (128 * 2 ^ 20) 74 1 true)
          (prom_init_mem_trim (board (128 * 2 ^ 20) 74 1 true) (128 <<< 20)) =
        prom_init_mem_trim (board (128 * 2 ^ 20) 74 1 true) (128 <<< 20) ∧
      (128 <<< 20 ≠ 128 <<< 20 ∨
          (board (128 * 2 ^ 20) 74 1 true).cputype ≠ (board (128 * 2 ^ 20) 74 1 true).CPU_74K →
        prom_init_mem_trim (board (128 * 2 ^ 20) 74 1 true) (128 <<< 20) = 128 <<< 20) :=
  C6_erratum_correction_idempotent (board (128 * 2 ^ 20) 74 1 true) (128 <<< 20)

/-- C7. For every probe oracle, anchor offset and CPU type, `prom_init_mem`
registers exactly one region, with base 0 and size equal to the sized low
memory `s` (the value its loop leaves, stored in `lowmem`), except that the
size is `s - 4096` when the CPU is the affected 74K and `s` = 128 MiB; in
particular 128 MiB of low memory on the affected variant registers
`{base 0, size 128 MiB - 4096}`. -/
theorem C7_low_region_registration (P : Platform) (s : State) :
    (prom_init_mem P s).lowmem =
        (prom_init_mem_loop P (prom_init_mem_off P) (1 <<< 20) []).1 ∧
      (prom_init_mem P s).memblock =
        s.memblock ++ [⟨0, if P.cputype = P.CPU_74K ∧ (prom_init_mem P s).lowmem = 128 <<< 20
          then (prom_init_mem P s).lowmem - 4096 else (prom_init_mem P s).lowmem⟩] ∧
      (P.cputype = P.CPU_74K → (prom_init_mem P s).lowmem = 128 <<< 20 →
        (prom_init_mem P s).memblock = s.memblock ++ [⟨0, 128 * 2 ^ 20 - 4096⟩]) := by
  refine ⟨prom_init_mem_lowmem P s, ?_, ?_⟩
  · rw [prom_init_mem_memblock, prom_init_mem_trim_eq]
  · intro hc hl
    rw [prom_init_mem_memblock, prom_init_mem_trim_eq, if_pos ⟨hc, hl⟩, hl]
    rfl

/-- C7 at a board with 512 MiB of RAM and a 74K: the low memory is sized at
128 MiB and the one region registered is `{0, 128 MiB - 4096}`. -/
theorem C7_low_region_registration_witness :
    (prom_init_mem (board (512 * 2 ^ 20) 74 1 true) boot).lowmem = 128 <<< 20 ∧
    (prom_init_mem (board (512 * 2 ^ 20) 74 1 true) boot).memblock =
      boot.memblock ++ [⟨0, 128 * 2 ^ 20 - 4096⟩] :=
  have hlow := board_lowmem_128 (512 * 2 ^ 20) 74 1 true boot (by norm_num [Nat.shiftLeft_eq])
  ⟨hlow, (C7_low_region_registration (board (512 * 2 ^ 20) 74 1 true) boot).2.2 rfl hlow⟩

end Prom

namespace Prom

/-! ## The whole of `prom_init` -/

/-- Adding a call to the trace leaves the inventory alone. -/
theorem emit_memblock (s : State) (e : Event) : (s.emit e).memblock = s.memblock := rfl

/-- Adding a call to the trace leaves the translation cache alone. -/
theorem emit_tlb (s : State) (e : Event) : (s.emit e).tlb = s.tlb := rfl

/-- Adding a call to the trace appends it. -/
theorem emit_trace (s : State) (e : Event) : (s.emit e).trace = s.trace ++ [e] := rfl

/-- The inventory left by `prom_init` when `bcm47xx_prom_highmem_init` is
compiled in, the bus is BCMA and the low memory was sized at 128 MiB: the low
region, then the high region unless the search found nothing. -/
theorem prom_init_memblock_run (P : Platform) (s : State)
    (hcfg : (P.CONFIG_BCM47XX_BCMA && P.CONFIG_HIGHMEM) = true)
    (hbus : P.bcm47xx_bus_type = P.BCM47XX_BUS_TYPE_BCMA)
    (hlow : (prom_init_mem P s).lowmem = 128 <<< 20) :
    (prom_init P s).memblock =
      s.memblock ++ ([⟨0, prom_init_mem_trim P (128 <<< 20)⟩] ++
        if (highmem_size P (128 <<< 20)).1 = 0 then []
        else [if P.cputype = P.CPU_74K
          then ⟨0x88000000 - 4096, sub32 (highmem_size P (128 <<< 20)).1 0x1000⟩
          else ⟨0x88000000, (highmem_size P (128 <<< 20)).1⟩]) := by
  rw [prom_init_unfold, if_pos hcfg, emit_memblock, highmem_init_memblock P _ hbus hlow,
    prom_init_mem_memblock, hlow, List.append_assoc]

/-- The state left by `prom_init` when the low memory was not sized at
128 MiB: that of `prom_init_mem`, with the warning when
`bcm47xx_prom_highmem_init` is compiled in on a bus other than BCMA, and the
call that sets up the console. -/
theorem prom_init_skip (P : Platform) (s : State)
    (hlow : (prom_init_mem P s).lowmem ≠ 128 <<< 20) :
    prom_init P s =
      (if (P.CONFIG_BCM47XX_BCMA && P.CONFIG_HIGHMEM) = true ∧
          P.bcm47xx_bus_type ≠ P.BCM47XX_BUS_TYPE_BCMA
        then (prom_init_mem P s).emit Event.WARN_ON else prom_init_mem P s).emit
        (Event.setup_8250_early_printk_port P.BCM47XX_SERIAL_CKSEG1ADDR 0 0) := by
  rw [prom_init_unfold]
  by_cases hcfg : (P.CONFIG_BCM47XX_BCMA && P.CONFIG_HIGHMEM) = true
  · rw [if_pos hcfg, highmem_init_skip P _ (Or.inr hlow)]
    by_cases hb : P.bcm47xx_bus_type ≠ P.BCM47XX_BUS_TYPE_BCMA
    · rw [if_pos hb, if_pos ⟨hcfg, hb⟩]
    · rw [if_neg hb, if_neg (fun h => hb h.2)]
  · rw [if_neg hcfg, if_neg (fun h => hcfg h.1)]

/-- No call made by the loop of `prom_init_mem` belongs to the temporary
mapping or to the search made through it. -/
theorem low_calls_not_highmem (P : Platform) (e : Event) (he : e ∈ low_calls P) :
    e.isHighmem = false := by
  rcases low_calls_events P e he with h | ⟨m, _, _, _, _, h⟩
  · rw [h]
    rfl
  · rw [h]
    rfl

/-- The inventory left by `prom_init` in scenario C: high-memory support
compiled in, BCMA bus, the 74K, 128 MiB of low memory and a probe that
matches at neither 128 MiB nor 256 MiB through the temporary mapping. -/
theorem prom_init_memblock_384 (P : Platform) (s : State)
    (hcfg : (P.CONFIG_BCM47XX_BCMA && P.CONFIG_HIGHMEM) = true)
    (hbus : P.bcm47xx_bus_type = P.BCM47XX_BUS_TYPE_BCMA)
    (hcpu : P.cputype = P.CPU_74K)
    (hlow : (prom_init_mem P s).lowmem = 128 <<< 20)
    (h128 : high_probe P (128 <<< 20) = false) (h256 : high_probe P (256 <<< 20) = false) :
    (prom_init P s).memblock =
      s.memblock ++ [⟨0, 128 * 2 ^ 20 - 4096⟩, ⟨0x88000000 - 4096, 384 * 2 ^ 20 - 4096⟩] := by
  rw [prom_init_memblock_run P s hcfg hbus hlow, highmem_size_no_match P h128 h256,
    if_neg (by norm_num), if_pos hcpu, sub32_page _ (by norm_num) (by norm_num),
    prom_init_mem_trim_eq, if_pos ⟨hcpu, rfl⟩]
  rfl

/-- C8, as the code has it. Running `prom_init` with high-memory support
compiled in, bus type BCMA, low memory sized at 128 MiB, the affected 74K CPU
and an extended bank that totals 384 MiB (the probe through the temporary
mapping matches exactly at the multiples of 384 MiB) registers exactly two
regions, in order: `{0, 128 MiB - 4096}` and
`{0x88000000 - 4096, 384 MiB - 4096}`. The size of the second is the 512 MiB
ceiling less the low memory, less one page. -/
theorem C8_scenario_C (P : Platform) (s : State)
    (hcfg : P.CONFIG_BCM47XX_BCMA = true ∧ P.CONFIG_HIGHMEM = true)
    (hbus : P.bcm47xx_bus_type = P.BCM47XX_BUS_TYPE_BCMA)
    (hcpu : P.cputype = P.CPU_74K)
    (hlow : (prom_init_mem P s).lowmem = 128 <<< 20)
    (horacle : ∀ m, 0 < m → m < 512 <<< 20 → (high_probe P m = true ↔ 384 * 2 ^ 20 ∣ m)) :
    (prom_init P s).memblock =
      s.memblock ++ [⟨0, 128 * 2 ^ 20 - 4096⟩, ⟨0x88000000 - 4096, 384 * 2 ^ 20 - 4096⟩] :=
  prom_init_memblock_384 P s (by rw [hcfg.1, hcfg.2]; rfl) hbus hcpu hlow
    (high_probe_384 P horacle).1 (high_probe_384 P horacle).2

/-- C8 at the board with 384 MiB of RAM and a 74K, booted from the initial
state. -/
theorem C8_scenario_C_witness :
    (prom_init_mem (board (384 * 2 ^ 20) 74 1 true) boot).lowmem = 128 <<< 20 ∧
    (prom_init (board (384 * 2 ^ 20) 74 1 true) boot).memblock =
      boot.memblock ++
        [⟨0, 128 * 2 ^ 20 - 4096⟩, ⟨0x88000000 - 4096, 384 * 2 ^ 20 - 4096⟩] :=
  have hlow := board_lowmem_128 (384 * 2 ^ 20) 74 1 true boot (by norm_num [Nat.shiftLeft_eq])
  ⟨hlow, C8_scenario_C (board (384 * 2 ^ 20) 74 1 true) boot ⟨rfl, rfl⟩ rfl rfl hlow
    (fun m _ hm => board_high_probe_384 74 1 true m hm)⟩

/-- C8 as the spec states it fails. On the board with 384 MiB of RAM and a
74K, with high-memory support compiled in and the BCMA bus, `prom_init`
sizes the low memory at 128 MiB and registers `{0, 128 MiB - 4096}` and
`{0x88000000 - 4096, 384 MiB - 4096}`: the second region has not the size
256 MiB - 4096 of the spec. -/
theorem C8_counterexample :
    ((board (384 * 2 ^ 20) 74 1 true).CONFIG_BCM47XX_BCMA = true ∧
      (board (384 * 2 ^ 20) 74 1 true).CONFIG_HIGHMEM = true) ∧
    (board (384 * 2 ^ 20) 74 1 true).bcm47xx_bus_type =
      (board (384 * 2 ^ 20) 74 1 true).BCM47XX_BUS_TYPE_BCMA ∧
    (board (384 * 2 ^ 20) 74 1 true).cputype = (board (384 * 2 ^ 20) 74 1 true).CPU_74K ∧
    (prom_init_mem (board (384 * 2 ^ 20) 74 1 true) boot).lowmem = 128 <<< 20 ∧
    (∀ m, 0 < m → m < 512 <<< 20 →
      (high_probe (board (384 * 2 ^ 20) 74 1 true) m = true ↔ 384 * 2 ^ 20 ∣ m)) ∧
    (prom_init (board (384 * 2 ^ 20) 74 1 true) boot).memblock =
      [⟨0, 128 * 2 ^ 20 - 4096⟩, ⟨0x88000000 - 4096, 384 * 2 ^ 20 - 4096⟩] ∧
    (prom_init (board (384 * 2 ^ 20) 74 1 true) boot).memblock ≠
      [⟨0, 128 * 2 ^ 20 - 4096⟩, ⟨0x88000000 - 4096, 256 * 2 ^ 20 - 4096⟩] := by
  have hlow := board_lowmem_128 (384 * 2 ^ 20) 74 1 true boot (by norm_num [Nat.shiftLeft_eq])
  have horacle : ∀ m, 0 < m → m < 512 <<< 20 →
      (high_probe (board (384 * 2 ^ 20) 74 1 true) m = true ↔ 384 * 2 ^ 20 ∣ m) :=
    fun m _ hm => board_high_probe_384 74 1 true m hm
  have hmb := prom_init_memblock_384 (board (384 * 2 ^ 20) 74 1 true) boot rfl rfl rfl hlow
    (high_probe_384 _ horacle).1 (high_probe_384 _ horacle).2
  rw [show boot.memblock = [] from rfl, List.nil_append] at hmb
  refine ⟨⟨rfl, rfl⟩, rfl, rfl, hlow, horacle, hmb, ?_⟩
  rw [hmb]
  intro h
  have h2 := (List.cons.inj (List.cons.inj h).2).1
  have h3 := congrArg Region.size h2
  norm_num at h3

end Prom

namespace Prom

/-- The example board with 64 MiB of RAM: the low-memory probe matches
exactly at the multiples of 64 MiB. -/
theorem board_low_probe_64 (cputype bus : Nat) (highmem : Bool) (m : Nat) :
    low_probe (board (64 * 2 ^ 20) cputype bus highmem) m = true ↔ 64 * 2 ^ 20 ∣ m := by
  unfold low_probe
  rw [decide_eq_true_eq]
  simp only [board]
  unfold add32 WORD
  constructor
  · intro h
    by_contra hd
    rw [if_neg (by omega)] at h
    exact absurd h (by decide)
  · intro hd
    rw [if_pos (by omega)]

/-- On the example board with 64 MiB of RAM, `prom_init_mem` sizes the low
memory at 64 MiB. -/
theorem board_lowmem_64 (cputype bus : Nat) (highmem : Bool) (s : State) :
    (prom_init_mem (board (64 * 2 ^ 20) cputype bus highmem) s).lowmem = 64 * 2 ^ 20 := by
  rw [prom_init_mem_lowmem]
  exact prom_init_mem_loop_installed _ 64 (by norm_num) (by norm_num)
    (fun m _ _ => board_low_probe_64 cputype bus highmem m)
    (by rw [board_off]; norm_num)

/-- C9. The temporary mapping never runs unless low memory is exactly
128 MiB. For every low-memory size other than 128 MiB, whatever the
configuration (high-memory support compiled out, or
`bcm47xx_prom_highmem_init` called), `prom_init` leaves the translation cache
unchanged, none of the calls it makes is `early_tlb_init`,
`add_temporary_entry` or a high-memory probe, and the whole boot registers
exactly one region, `{base 0, size = low-memory size}`. Likewise
`bcm47xx_prom_highmem_init` called in any state whose `lowmem` is not 128 MiB
leaves the translation cache and the inventory unchanged and makes no call
but, on a bus other than BCMA, the warning. -/
theorem C9_window_needs_128 (P : Platform) (s : State)
    (hlow : (prom_init_mem P s).lowmem ≠ 128 <<< 20) :
    (prom_init P s).tlb = s.tlb ∧
      (∃ es, (prom_init P s).trace = s.trace ++ es ∧ ∀ e ∈ es, e.isHighmem = false) ∧
      (prom_init P s).memblock = s.memblock ++ [⟨0, (prom_init_mem P s).lowmem⟩] ∧
      ∀ t : State, t.lowmem ≠ 128 <<< 20 →
        (bcm47xx_prom_highmem_init P t).tlb = t.tlb ∧
        (bcm47xx_prom_highmem_init P t).memblock = t.memblock ∧
        ((bcm47xx_prom_highmem_init P t).trace = t.trace ∨
          (bcm47xx_prom_highmem_init P t).trace = t.trace ++ [Event.WARN_ON]) := by
  have hmb : (prom_init_mem P s).memblock = s.memblock ++ [⟨0, (prom_init_mem P s).lowmem⟩] := by
    rw [prom_init_mem_memblock, prom_init_mem_trim_eq, if_neg (fun h => hlow h.2)]
  have hlc : ∀ e ∈ low_calls P ++
      [Event.memblock_add 0 (prom_init_mem_trim P (prom_init_mem P s).lowmem)],
      e.isHighmem = false := by
    intro e he
    rcases List.mem_append.mp he with h | h
    · exact low_calls_not_highmem P e h
    · rw [List.mem_singleton.mp h]
      rfl
  refine ⟨?_, ?_, ?_, ?_⟩
  · rw [prom_init_skip P s hlow, emit_tlb]
    by_cases hc : (P.CONFIG_BCM47XX_BCMA && P.CONFIG_HIGHMEM) = true ∧
        P.bcm47xx_bus_type ≠ P.BCM47XX_BUS_TYPE_BCMA
    · rw [if_pos hc, emit_tlb, prom_init_mem_tlb]
    · rw [if_neg hc, prom_init_mem_tlb]
  · rw [prom_init_skip P s hlow, emit_trace]
    by_cases hc : (P.CONFIG_BCM47XX_BCMA && P.CONFIG_HIGHMEM) = true ∧
        P.bcm47xx_bus_type ≠ P.BCM47XX_BUS_TYPE_BCMA
    · rw [if_pos hc, emit_trace, prom_init_mem_trace]
      refine ⟨_, by rw [List.append_assoc, List.append_assoc], ?_⟩
      intro e he
      rcases List.mem_append.mp he with h | h
      · exact hlc e h
      · rcases List.mem_append.mp h with h | h
        · rw [List.mem_singleton.mp h]
          rfl
        · rw [List.mem_singleton.mp h]
          rfl
    · rw [if_neg hc, prom_init_mem_trace]
      refine ⟨_, by rw [List.append_assoc], ?_⟩
      intro e he
      rcases List.mem_append.mp he with h | h
      · exact hlc e h
      · rw [List.mem_singleton.mp h]
        rfl
  · rw [prom_init_skip P s hlow, emit_memblock]
    by_cases hc : (P.CONFIG_BCM47XX_BCMA && P.CONFIG_HIGHMEM) = true ∧
        P.bcm47xx_bus_type ≠ P.BCM47XX_BUS_TYPE_BCMA
    · rw [if_pos hc, emit_memblock, hmb]
    · rw [if_neg hc, hmb]
  · intro t ht
    rw [highmem_init_skip P t (Or.inr ht)]
    by_cases hb : P.bcm47xx_bus_type ≠ P.BCM47XX_BUS_TYPE_BCMA
    · rw [if_pos hb]
      exact ⟨rfl, rfl, Or.inr rfl⟩
    · rw [if_neg hb]
      exact ⟨rfl, rfl, Or.inl rfl⟩

/-- C9 in scenario B: a board with 64 MiB of RAM, high-memory support
compiled out. The low memory is sized at 64 MiB, the translation cache is
left as it was and the one region registered is `{0, 64 MiB}`. -/
theorem C9_window_needs_128_witness :
    (prom_init_mem (board (64 * 2 ^ 20) 74 1 false) boot).lowmem = 64 * 2 ^ 20 ∧
    (prom_init (board (64 * 2 ^ 20) 74 1 false) boot).tlb = boot.tlb ∧
    (prom_init (board (64 * 2 ^ 20) 74 1 false) boot).memblock =
      boot.memblock ++ [⟨0, (prom_init_mem (board (64 * 2 ^ 20) 74 1 false) boot).lowmem⟩] :=
  have h64 := board_lowmem_64 74 1 false boot
  have hc := C9_window_needs_128 (board (64 * 2 ^ 20) 74 1 false) boot
    (by rw [h64]; norm_num [Nat.shiftLeft_eq])
  ⟨h64, hc.1, hc.2.2.1⟩

/-- The inventory left by `prom_init` when `bcm47xx_prom_highmem_init` is
compiled out, or the bus is not BCMA, or the low memory was not sized at
128 MiB: that of `prom_init_mem`. -/
theorem prom_init_memblock_skip (P : Platform) (s : State)
    (h : ¬ ((P.CONFIG_BCM47XX_BCMA && P.CONFIG_HIGHMEM) = true ∧
      P.bcm47xx_bus_type = P.BCM47XX_BUS_TYPE_BCMA ∧
      (prom_init_mem P s).lowmem = 128 <<< 20)) :
    (prom_init P s).memblock = (prom_init_mem P s).memblock := by
  rw [prom_init_unfold, emit_memblock]
  by_cases hcfg : (P.CONFIG_BCM47XX_BCMA && P.CONFIG_HIGHMEM) = true
  · rw [if_pos hcfg]
    have hs : P.bcm47xx_bus_type ≠ P.BCM47XX_BUS_TYPE_BCMA ∨
        (prom_init_mem P s).lowmem ≠ 128 <<< 20 := by
      by_cases hb : P.bcm47xx_bus_type = P.BCM47XX_BUS_TYPE_BCMA
      · exact Or.inr (fun hl => h ⟨hcfg, hb, hl⟩)
      · exact Or.inl hb
    rw [highmem_init_skip P _ hs]
    by_cases hb : P.bcm47xx_bus_type ≠ P.BCM47XX_BUS_TYPE_BCMA
    · rw [if_pos hb, emit_memblock]
    · rw [if_neg hb]
  · rw [if_neg hcfg]

/-- The arithmetic of the two regions: a low size of at most 128 MiB, and a
high region of 128 MiB or 384 MiB at `0x88000000`, or moved down and shortened
by one page. -/
theorem regions_apart (ext L H S : Nat) (hext : ext = 128 <<< 20 ∨ ext = 384 * 2 ^ 20)
    (hL : L ≤ 128 <<< 20)
    (hR : (H = 0x88000000 - 4096 ∧ S = sub32 ext 0x1000) ∨ (H = 0x88000000 ∧ S = ext)) :
    0x80000000 ≤ H ∧ L ≤ H ∧ H + S < 2 ^ 32 ∧ ∀ a, a < L → ¬ (H ≤ a ∧ a < H + S) := by
  have hS : S ≤ ext := by
    rcases hR with ⟨_, h⟩ | ⟨_, h⟩
    · rw [h, sub32_page ext (by omega) (by omega)]
      omega
    · omega
  have hH : 0x88000000 - 4096 ≤ H ∧ H ≤ 0x88000000 := by
    rcases hR with ⟨h, _⟩ | ⟨h, _⟩ <;> omega
  refine ⟨by omega, by omega, by omega, ?_⟩
  intro a ha hb
  omega

/-- C10. Registered regions never overlap: for every probe oracle, anchor
offset, CPU type and bus type, if `prom_init` registers a low region `[0, L)`
and a high region `[H, H+S)`, then `H >= 0x80000000`, `L <= H`, `H + S` does
not wrap around `2^32`, and no address lies in both ranges. -/
theorem C10_regions_never_overlap (P : Platform) (s : State) (L H S : Nat)
    (h : (prom_init P s).memblock = s.memblock ++ [⟨0, L⟩, ⟨H, S⟩]) :
    0x80000000 ≤ H ∧ L ≤ H ∧ H + S < 2 ^ 32 ∧ ∀ a, a < L → ¬ (H ≤ a ∧ a < H + S) := by
  by_cases hrun : (P.CONFIG_BCM47XX_BCMA && P.CONFIG_HIGHMEM) = true ∧
      P.bcm47xx_bus_type = P.BCM47XX_BUS_TYPE_BCMA ∧ (prom_init_mem P s).lowmem = 128 <<< 20
  · rw [prom_init_memblock_run P s hrun.1 hrun.2.1 hrun.2.2] at h
    have h1 := List.append_cancel_left h
    have hL : L ≤ 128 <<< 20 := by
      have e1 : prom_init_mem_trim P (128 <<< 20) = L := by
        have := (List.cons.inj h1).1
        exact congrArg Region.size this
      rw [← e1, prom_init_mem_trim_eq]
      split <;> omega
    have hcases := highmem_size_128_cases P
    by_cases h0 : (highmem_size P (128 <<< 20)).1 = 0
    · rw [if_pos h0] at h1
      exact absurd (congrArg List.length h1) (by simp)
    · rw [if_neg h0] at h1
      have hR := (List.cons.inj (List.cons.inj h1).2).1
      have hext : (highmem_size P (128 <<< 20)).1 = 128 <<< 20 ∨
          (highmem_size P (128 <<< 20)).1 = 384 * 2 ^ 20 := by
        by_cases p1 : high_probe P (128 <<< 20) = true
        · rw [if_pos p1] at hcases
          exact absurd hcases h0
        · rw [if_neg p1] at hcases
          by_cases p2 : high_probe P (256 <<< 20) = true
          · rw [if_pos p2] at hcases
            exact Or.inl hcases
          · rw [if_neg p2] at hcases
            exact Or.inr hcases
      refine regions_apart _ L H S hext hL ?_
      by_cases hc : P.cputype = P.CPU_74K
      · rw [if_pos hc] at hR
        exact Or.inl ⟨(congrArg Region.base hR).symm, (congrArg Region.size hR).symm⟩
      · rw [if_neg hc] at hR
        exact Or.inr ⟨(congrArg Region.base hR).symm, (congrArg Region.size hR).symm⟩
  · rw [prom_init_memblock_skip P s hrun, prom_init_mem_memblock] at h
    have h1 := List.append_cancel_left h
    exact absurd (congrArg List.length h1) (by simp)

/-- C10 at the board with 384 MiB of RAM and a 74K: `prom_init` registers
`[0, 128 MiB - 4096)` and a region of 384 MiB - 4096 bytes at
`0x88000000 - 4096`, and these are apart. -/
theorem C10_regions_never_overlap_witness :
    (prom_init (board (384 * 2 ^ 20) 74 1 true) boot).memblock =
      boot.memblock ++
        [⟨0, 128 * 2 ^ 20 - 4096⟩, ⟨0x88000000 - 4096, 384 * 2 ^ 20 - 4096⟩] ∧
    (0x80000000 ≤ 0x88000000 - 4096 ∧ 128 * 2 ^ 20 - 4096 ≤ 0x88000000 - 4096 ∧
      0x88000000 - 4096 + (384 * 2 ^ 20 - 4096) < 2 ^ 32 ∧
      ∀ a, a < 128 * 2 ^ 20 - 4096 →
        ¬ (0x88000000 - 4096 ≤ a ∧ a < 0x88000000 - 4096 + (384 * 2 ^ 20 - 4096))) :=
  have hlow := board_lowmem_128 (384 * 2 ^ 20) 74 1 true boot (by norm_num [Nat.shiftLeft_eq])
  have hmb := prom_init_memblock_384 (board (384 * 2 ^ 20) 74 1 true) boot rfl rfl rfl hlow
    (high_probe_384 _ (fun m _ hm => board_high_probe_384 74 1 true m hm)).1
    (high_probe_384 _ (fun m _ hm => board_high_probe_384 74 1 true m hm)).2
  ⟨hmb, C10_regions_never_overlap (board (384 * 2 ^ 20) 74 1 true) boot _ _ _ hmb⟩

end Prom

namespace Prom

/-! ## Guards, effects and ranges of `bcm47xx_prom_highmem_init` -/

/-- C11. Bus-type precondition violation: for every low-memory size and CPU
type, if the bus type is not BCMA, `bcm47xx_prom_highmem_init` raises the
warning and returns: the state is the one it was called in with the warning
added to the calls, so the translation cache is unchanged, no probe is made
and no region is registered. -/
theorem C11_bus_type_violation (P : Platform) (s : State)
    (hbus : P.bcm47xx_bus_type ≠ P.BCM47XX_BUS_TYPE_BCMA) :
    bcm47xx_prom_highmem_init P s = s.emit Event.WARN_ON ∧
      (bcm47xx_prom_highmem_init P s).tlb = s.tlb ∧
      (bcm47xx_prom_highmem_init P s).memblock = s.memblock ∧
      (bcm47xx_prom_highmem_init P s).lowmem = s.lowmem ∧
      (bcm47xx_prom_highmem_init P s).trace = s.trace ++ [Event.WARN_ON] := by
  have h : bcm47xx_prom_highmem_init P s = s.emit Event.WARN_ON := by
    rw [highmem_init_skip P s (Or.inl hbus), if_pos hbus]
  rw [h]
  exact ⟨rfl, rfl, rfl, rfl, rfl⟩

/-- C11 on the example board with the SSB bus (bus type 0) after
`prom_init_mem` sized 128 MiB of low memory. -/
theorem C11_bus_type_violation_witness :
    (board (512 * 2 ^ 20) 74 0 true).bcm47xx_bus_type ≠
      (board (512 * 2 ^ 20) 74 0 true).BCM47XX_BUS_TYPE_BCMA ∧
    (bcm47xx_prom_highmem_init (board (512 * 2 ^ 20) 74 0 true)
      (prom_init_mem (board (512 * 2 ^ 20) 74 0 true) boot)).trace =
      (prom_init_mem (board (512 * 2 ^ 20) 74 0 true) boot).trace ++ [Event.WARN_ON] :=
  have hbus : (board (512 * 2 ^ 20) 74 0 true).bcm47xx_bus_type ≠
      (board (512 * 2 ^ 20) 74 0 true).BCM47XX_BUS_TYPE_BCMA := by
    simp only [board]
    decide
  ⟨hbus, (C11_bus_type_violation (board (512 * 2 ^ 20) 74 0 true)
    (prom_init_mem (board (512 * 2 ^ 20) 74 0 true) boot) hbus).2.2.2.2⟩

/-- Adding calls to the trace leaves the translation cache alone. -/
theorem emits_tlb (s : State) (es : List Event) : (s.emits es).tlb = s.tlb := rfl

/-- Adding calls to the trace appends them. -/
theorem emits_trace (s : State) (es : List Event) : (s.emits es).trace = s.trace ++ es := rfl

/-- The function `highmem_register` leaves the translation cache alone. -/
theorem highmem_register_tlb (P : Platform) (mem extmem : Nat) (s : State) :
    (highmem_register P mem extmem s).tlb = s.tlb := by
  by_cases h : P.cputype = P.CPU_74K ∧ mem = 128 <<< 20
  · rw [highmem_register_74k P mem extmem s h]
  · rw [highmem_register_other P mem extmem s h]

/-- The calls that `highmem_register` adds are messages and one
`memblock_add`: none belongs to the temporary mapping or to the search. -/
theorem highmem_register_trace (P : Platform) (mem extmem : Nat) (s : State) :
    ∃ es, (highmem_register P mem extmem s).trace = s.trace ++ es ∧
      ∀ e ∈ es, e.isHighmem = false := by
  by_cases h : P.cputype = P.CPU_74K ∧ mem = 128 <<< 20
  · rw [highmem_register_74k P mem extmem s h]
    refine ⟨_, rfl, ?_⟩
    intro e he
    simp only [List.mem_cons, List.mem_singleton, List.not_mem_nil, or_false] at he
    rcases he with h | h | h <;> rw [h] <;> rfl
  · rw [highmem_register_other P mem extmem s h]
    refine ⟨_, rfl, ?_⟩
    intro e he
    simp only [List.mem_cons, List.mem_singleton, List.not_mem_nil, or_false] at he
    rcases he with h | h <;> rw [h] <;> rfl

/-- The translation cache left by `bcm47xx_prom_highmem_init` when both guards
pass: reset, flushed, and holding the one temporary entry in the last slot. -/
theorem highmem_init_run_tlb (P : Platform) (s : State)
    (hbus : P.bcm47xx_bus_type = P.BCM47XX_BUS_TYPE_BCMA) (hlow : s.lowmem = 128 <<< 20) :
    (bcm47xx_prom_highmem_init P s).tlb =
      { pagemask := P.PM_DEFAULT_MASK, wired := 0, temp_tlb_entry := P.tlbsize - 1,
        entries := [⟨P.tlbsize - 1, ENTRYLO P SI_SDRAM_R2,
          ENTRYLO P (add32 SI_SDRAM_R2 (256 <<< 20)), EXTVBASE, P.PM_256M⟩] } := by
  rw [highmem_init_run P s hbus hlow]
  by_cases h0 : (highmem_size P (128 <<< 20)).1 = 0
  · rw [if_pos h0, emits_tlb]
    rfl
  · rw [if_neg h0, highmem_register_tlb, emit_tlb, emits_tlb]
    rfl

/-- The calls of `bcm47xx_prom_highmem_init` when both guards pass: the two
that install the temporary mapping, those of the search, then messages and
at most one `memblock_add`. -/
theorem highmem_init_run_trace (P : Platform) (s : State)
    (hbus : P.bcm47xx_bus_type = P.BCM47XX_BUS_TYPE_BCMA) (hlow : s.lowmem = 128 <<< 20) :
    ∃ rest, (bcm47xx_prom_highmem_init P s).trace =
        s.trace ++ ([Event.early_tlb_init,
          Event.add_temporary_entry (ENTRYLO P SI_SDRAM_R2)
            (ENTRYLO P (add32 SI_SDRAM_R2 (256 <<< 20))) EXTVBASE P.PM_256M] ++
          (highmem_size P (128 <<< 20)).2 ++ rest) ∧
      ∀ e ∈ rest, e.isHighmem = false := by
  rw [highmem_init_run P s hbus hlow]
  by_cases h0 : (highmem_size P (128 <<< 20)).1 = 0
  · rw [if_pos h0, emits_trace]
    refine ⟨[], ?_, fun e he => absurd he (List.not_mem_nil e)⟩
    simp only [add_temporary_entry, early_tlb_init, List.append_assoc, List.append_nil,
      List.singleton_append, List.cons_append, List.nil_append]
  · rw [if_neg h0]
    obtain ⟨es, hes, hno⟩ := highmem_register_trace P (128 <<< 20)
      (highmem_size P (128 <<< 20)).1
      (((add_temporary_entry (ENTRYLO P SI_SDRAM_R2)
        (ENTRYLO P (add32 SI_SDRAM_R2 (256 <<< 20))) EXTVBASE P.PM_256M
        (early_tlb_init P s)).emits (highmem_size P (128 <<< 20)).2).emit
        (Event.pr_info "Found %lu MiB of extra memory\n"
          [(highmem_size P (128 <<< 20)).1 >>> 20]))
    rw [hes, emit_trace, emits_trace]
    refine ⟨Event.pr_info "Found %lu MiB of extra memory\n"
      [(highmem_size P (128 <<< 20)).1 >>> 20] :: es, ?_, ?_⟩
    · simp only [add_temporary_entry, early_tlb_init, List.append_assoc,
        List.singleton_append, List.cons_append, List.nil_append]
    · intro e he
      rcases List.mem_cons.mp he with h | h
      · rw [h]
        rfl
      · exact hno e h

end Prom

namespace Prom

/-- A whole number of MiB, at least one, is a positive multiple of 4096, and
stays one after one page is taken off. -/
theorem mib_page_aligned (x : Nat) (h1 : 1 <<< 20 ≤ x) (h2 : 2 ^ 20 ∣ x) :
    (0 < x ∧ 4096 ∣ x) ∧ (0 < x - 4096 ∧ 4096 ∣ x - 4096) := by
  obtain ⟨k, hk⟩ := h2
  refine ⟨⟨by omega, ⟨256 * k, by omega⟩⟩, by omega, ⟨256 * k - 1, by omega⟩⟩

/-- The value of `extmem` after line 182 is 128 MiB or 384 MiB when it is not
zero. -/
theorem highmem_size_128_nonzero (P : Platform) (h0 : (highmem_size P (128 <<< 20)).1 ≠ 0) :
    (highmem_size P (128 <<< 20)).1 = 128 <<< 20 ∨
      (highmem_size P (128 <<< 20)).1 = 384 * 2 ^ 20 := by
  have hcases := highmem_size_128_cases P
  by_cases p1 : high_probe P (128 <<< 20) = true
  · rw [if_pos p1] at hcases
    exact absurd hcases h0
  · rw [if_neg p1] at hcases
    by_cases p2 : high_probe P (256 <<< 20) = true
    · rw [if_pos p2] at hcases
      exact Or.inl hcases
    · rw [if_neg p2] at hcases
      exact Or.inr hcases

/-- The high region, at `0x88000000` with 128 MiB or 384 MiB, or moved down
and shortened by one page, has a positive size that is a multiple of 4096 and
a base that is a multiple of 4096. -/
theorem high_region_page_aligned (ext : Nat) (c : Prop) [Decidable c]
    (hext : ext = 128 <<< 20 ∨ ext = 384 * 2 ^ 20) :
    (if c then (⟨0x88000000 - 4096, sub32 ext 0x1000⟩ : Region)
      else ⟨0x88000000, ext⟩).page_aligned := by
  have hs : sub32 ext 0x1000 = ext - 4096 := sub32_page ext (by omega) (by omega)
  by_cases hc : c
  · rw [if_pos hc, hs]
    refine ⟨?_, ?_, ?_⟩
    · show 0 < ext - 4096
      omega
    · show 4096 ∣ ext - 4096
      rcases hext with h | h
      · exact ⟨32767, by omega⟩
      · exact ⟨98303, by omega⟩
    · show 4096 ∣ 0x88000000 - 4096
      exact ⟨557055, by norm_num⟩
  · rw [if_neg hc]
    refine ⟨?_, ?_, ?_⟩
    · show 0 < ext
      omega
    · show 4096 ∣ ext
      rcases hext with h | h
      · exact ⟨32768, by omega⟩
      · exact ⟨98304, by omega⟩
    · show 4096 ∣ 0x88000000
      exact ⟨557056, by norm_num⟩

/-- C12. MemoryRegion invariant: every region passed to `memblock_add` by
`prom_init_mem` or by `bcm47xx_prom_highmem_init`, for every probe oracle,
anchor offset, CPU type, bus type and state they are called in, has a size
that is a positive multiple of 4096 bytes and a base that is a multiple of
4096. -/
theorem C12_regions_page_aligned (P : Platform) (s t : State) :
    (∃ rs, (prom_init_mem P s).memblock = s.memblock ++ rs ∧ ∀ r ∈ rs, r.page_aligned) ∧
      ∃ rs, (bcm47xx_prom_highmem_init P t).memblock = t.memblock ++ rs ∧
        ∀ r ∈ rs, r.page_aligned := by
  constructor
  · refine ⟨_, prom_init_mem_memblock P s, ?_⟩
    intro r hr
    rw [List.mem_singleton.mp hr, prom_init_mem_trim_eq]
    have hrange := prom_init_mem_lowmem_range P s
    have hal := mib_page_aligned _ hrange.1 hrange.2.2
    by_cases hc : P.cputype = P.CPU_74K ∧ (prom_init_mem P s).lowmem = 128 <<< 20
    · rw [if_pos hc]
      exact ⟨hal.2.1, hal.2.2, dvd_zero _⟩
    · rw [if_neg hc]
      exact ⟨hal.1.1, hal.1.2, dvd_zero _⟩
  · by_cases hrun : P.bcm47xx_bus_type = P.BCM47XX_BUS_TYPE_BCMA ∧ t.lowmem = 128 <<< 20
    · refine ⟨_, highmem_init_memblock P t hrun.1 hrun.2, ?_⟩
      intro r hr
      by_cases h0 : (highmem_size P (128 <<< 20)).1 = 0
      · rw [if_pos h0] at hr
        exact absurd hr (List.not_mem_nil r)
      · rw [if_neg h0] at hr
        rw [List.mem_singleton.mp hr]
        exact high_region_page_aligned _ _ (highmem_size_128_nonzero P h0)
    · refine ⟨[], ?_, fun r hr => absurd hr (List.not_mem_nil r)⟩
      have hs : P.bcm47xx_bus_type ≠ P.BCM47XX_BUS_TYPE_BCMA ∨ t.lowmem ≠ 128 <<< 20 := by
        by_cases hb : P.bcm47xx_bus_type = P.BCM47XX_BUS_TYPE_BCMA
        · exact Or.inr (fun hl => hrun ⟨hb, hl⟩)
        · exact Or.inl hb
      rw [highmem_init_skip P t hs, List.append_nil]
      by_cases hb : P.bcm47xx_bus_type ≠ P.BCM47XX_BUS_TYPE_BCMA
      · rw [if_pos hb, emit_memblock]
      · rw [if_neg hb]

/-- What `prom_init` did when it registered two regions: high-memory support
is compiled in, the bus is BCMA, the low memory was sized at 128 MiB, the
search found something, the first region is the corrected low memory and the
second is the high region, moved down and shortened by one page on the
74K. -/
theorem prom_init_two_regions (P : Platform) (s : State) (L H S : Nat)
    (h : (prom_init P s).memblock = s.memblock ++ [⟨0, L⟩, ⟨H, S⟩]) :
    (prom_init_mem P s).lowmem = 128 <<< 20 ∧
      P.bcm47xx_bus_type = P.BCM47XX_BUS_TYPE_BCMA ∧
      (highmem_size P (128 <<< 20)).1 ≠ 0 ∧
      L = prom_init_mem_trim P (128 <<< 20) ∧
      (⟨H, S⟩ : Region) = if P.cputype = P.CPU_74K
        then ⟨0x88000000 - 4096, sub32 (highmem_size P (128 <<< 20)).1 0x1000⟩
        else ⟨0x88000000, (highmem_size P (128 <<< 20)).1⟩ := by
  by_cases hrun : (P.CONFIG_BCM47XX_BCMA && P.CONFIG_HIGHMEM) = true ∧
      P.bcm47xx_bus_type = P.BCM47XX_BUS_TYPE_BCMA ∧ (prom_init_mem P s).lowmem = 128 <<< 20
  · rw [prom_init_memblock_run P s hrun.1 hrun.2.1 hrun.2.2] at h
    have h1 := List.append_cancel_left h
    by_cases h0 : (highmem_size P (128 <<< 20)).1 = 0
    · rw [if_pos h0] at h1
      exact absurd (congrArg List.length h1) (by simp)
    · rw [if_neg h0] at h1
      have hL := (Region.mk.inj (List.cons.inj h1).1).2
      have hR := (List.cons.inj (List.cons.inj h1).2).1
      exact ⟨hrun.2.2, hrun.2.1, h0, hL.symm, hR.symm⟩
  · rw [prom_init_memblock_skip P s hrun, prom_init_mem_memblock] at h
    have h1 := List.append_cancel_left h
    exact absurd (congrArg List.length h1) (by simp)

/-- C18. The high region starts right after the registered low bank: in every
boot in which `prom_init` registers both a low region `{0, L}` and a high
region `{H, S}`, for either CPU variant, `H - 0x80000000 = L`: 128 MiB when
neither is trimmed, 128 MiB - 4096 when both are trimmed by the erratum. -/
theorem C18_high_region_follows_low (P : Platform) (s : State) (L H S : Nat)
    (h : (prom_init P s).memblock = s.memblock ++ [⟨0, L⟩, ⟨H, S⟩]) :
    0x80000000 ≤ H ∧ H - 0x80000000 = L ∧
      (L = 128 * 2 ^ 20 ∨ L = 128 * 2 ^ 20 - 4096) := by
  obtain ⟨_, _, _, hL, hR⟩ := prom_init_two_regions P s L H S h
  rw [prom_init_mem_trim_eq] at hL
  by_cases hc : P.cputype = P.CPU_74K
  · rw [if_pos hc] at hR
    rw [if_pos ⟨hc, rfl⟩] at hL
    have hH := (Region.mk.inj hR).1
    omega
  · rw [if_neg hc] at hR
    rw [if_neg (fun h => hc h.1)] at hL
    have hH := (Region.mk.inj hR).1
    omega

/-- C18 at the board with 384 MiB of RAM and a 74K: the low region has
128 MiB - 4096 bytes and the high region starts at `0x88000000 - 4096`. -/
theorem C18_high_region_follows_low_witness :
    (prom_init (board (384 * 2 ^ 20) 74 1 true) boot).memblock =
      boot.memblock ++
        [⟨0, 128 * 2 ^ 20 - 4096⟩, ⟨0x88000000 - 4096, 384 * 2 ^ 20 - 4096⟩] ∧
    0x88000000 - 4096 - 0x80000000 = 128 * 2 ^ 20 - 4096 :=
  have hlow := board_lowmem_128 (384 * 2 ^ 20) 74 1 true boot (by norm_num [Nat.shiftLeft_eq])
  have hmb := prom_init_memblock_384 (board (384 * 2 ^ 20) 74 1 true) boot rfl rfl rfl hlow
    (high_probe_384 _ (fun m _ hm => board_high_probe_384 74 1 true m hm)).1
    (high_probe_384 _ (fun m _ hm => board_high_probe_384 74 1 true m hm)).2
  ⟨hmb, (C18_high_region_follows_low (board (384 * 2 ^ 20) 74 1 true) boot _ _ _ hmb).2.1⟩

end Prom

namespace Prom

/-- C19. Range of the high-memory sizer: for every probe oracle, with low
memory = 128 MiB on the BCMA bus, the search of `bcm47xx_prom_highmem_init`
ends after one or two probes, at the strides 128 MiB and 256 MiB (doubling
either stride does not overflow the 32-bit word), no other comparison is made
by the function, and the extra-memory size computed before the erratum
correction is 0, 128 MiB or 384 MiB. -/
theorem C19_high_sizer_range (P : Platform) (s : State)
    (hbus : P.bcm47xx_bus_type = P.BCM47XX_BUS_TYPE_BCMA) (hlow : s.lowmem = 128 <<< 20) :
    ((highmem_size P s.lowmem).2 =
        [Event.memcmp P.prom_init (add32 (highmem_off P) (128 <<< 20)) 16] ∨
      (highmem_size P s.lowmem).2 =
        [Event.memcmp P.prom_init (add32 (highmem_off P) (128 <<< 20)) 16,
         Event.memcmp P.prom_init (add32 (highmem_off P) (256 <<< 20)) 16]) ∧
      (shl32 (128 <<< 20) 1 = 2 * 128 <<< 20 ∧ shl32 (256 <<< 20) 1 = 2 * 256 <<< 20) ∧
      ((highmem_size P s.lowmem).1 = 0 ∨ (highmem_size P s.lowmem).1 = 128 * 2 ^ 20 ∨
        (highmem_size P s.lowmem).1 = 384 * 2 ^ 20) ∧
      ∃ rest, (bcm47xx_prom_highmem_init P s).trace =
          s.trace ++ ([Event.early_tlb_init,
            Event.add_temporary_entry (ENTRYLO P SI_SDRAM_R2)
              (ENTRYLO P (add32 SI_SDRAM_R2 (256 <<< 20))) EXTVBASE P.PM_256M] ++
            (highmem_size P s.lowmem).2 ++ rest) ∧
        ∀ e ∈ rest, e.isHighmem = false := by
  refine ⟨?_, ⟨shl32_strides.1, shl32_strides.2⟩, ?_, ?_⟩
  · rw [hlow, highmem_size_128]
    by_cases p1 : high_probe P (128 <<< 20) = true
    · rw [if_pos p1]
      exact Or.inl rfl
    · rw [if_neg p1]
      exact Or.inr rfl
  · rw [hlow]
    by_cases h0 : (highmem_size P (128 <<< 20)).1 = 0
    · exact Or.inl h0
    · rcases highmem_size_128_nonzero P h0 with h | h
      · exact Or.inr (Or.inl (h.trans rfl))
      · exact Or.inr (Or.inr h)
  · rw [hlow]
    exact highmem_init_run_trace P s hbus hlow

/-- C19 at the board with 384 MiB of RAM after `prom_init_mem`: two probes,
and 384 MiB computed. -/
theorem C19_high_sizer_range_witness :
    (prom_init_mem (board (384 * 2 ^ 20) 74 1 true) boot).lowmem = 128 <<< 20 ∧
    ((highmem_size (board (384 * 2 ^ 20) 74 1 true)
        (prom_init_mem (board (384 * 2 ^ 20) 74 1 true) boot).lowmem).1 = 0 ∨
      (highmem_size (board (384 * 2 ^ 20) 74 1 true)
        (prom_init_mem (board (384 * 2 ^ 20) 74 1 true) boot).lowmem).1 = 128 * 2 ^ 20 ∨
      (highmem_size (board (384 * 2 ^ 20) 74 1 true)
        (prom_init_mem (board (384 * 2 ^ 20) 74 1 true) boot).lowmem).1 = 384 * 2 ^ 20) :=
  have hlow := board_lowmem_128 (384 * 2 ^ 20) 74 1 true boot (by norm_num [Nat.shiftLeft_eq])
  ⟨hlow, (C19_high_sizer_range (board (384 * 2 ^ 20) 74 1 true)
    (prom_init_mem (board (384 * 2 ^ 20) 74 1 true) boot) rfl hlow).2.2.1⟩

/-- C20. The low-memory size handed to the high-memory stage is the untrimmed
one: for every probe oracle, anchor offset and CPU type, the value stored in
`lowmem` by `prom_init_mem` is the value left by the sizing loop, before the
erratum correction. So on the affected 74K with 128 MiB of low memory the
registered low region has size 128 MiB - 4096 while `lowmem` = 128 MiB, and on
the BCMA bus the guard `lowmem == 128 MiB` of `bcm47xx_prom_highmem_init`
passes: the temporary mapping is installed. -/
theorem C20_lowmem_untrimmed (P : Platform) (s : State) :
    (prom_init_mem P s).lowmem =
        (prom_init_mem_loop P (prom_init_mem_off P) (1 <<< 20) []).1 ∧
      (P.cputype = P.CPU_74K → (prom_init_mem P s).lowmem = 128 <<< 20 →
        (prom_init_mem P s).memblock = s.memblock ++ [⟨0, 128 * 2 ^ 20 - 4096⟩] ∧
        (P.bcm47xx_bus_type = P.BCM47XX_BUS_TYPE_BCMA →
          (bcm47xx_prom_highmem_init P (prom_init_mem P s)).tlb =
            { pagemask := P.PM_DEFAULT_MASK, wired := 0, temp_tlb_entry := P.tlbsize - 1,
              entries := [⟨P.tlbsize - 1, ENTRYLO P SI_SDRAM_R2,
                ENTRYLO P (add32 SI_SDRAM_R2 (256 <<< 20)), EXTVBASE, P.PM_256M⟩] })) := by
  refine ⟨prom_init_mem_lowmem P s, ?_⟩
  intro hc hl
  refine ⟨?_, fun hbus => highmem_init_run_tlb P _ hbus hl⟩
  rw [prom_init_mem_memblock, prom_init_mem_trim_eq, if_pos ⟨hc, hl⟩, hl]
  rfl

/-- C20 at the board with 512 MiB of RAM and a 74K on the BCMA bus: `lowmem`
is 128 MiB, the low region has 128 MiB - 4096 bytes, and
`bcm47xx_prom_highmem_init` installs the temporary entry. -/
theorem C20_lowmem_untrimmed_witness :
    (prom_init_mem (board (512 * 2 ^ 20) 74 1 true) boot).lowmem = 128 <<< 20 ∧
    (prom_init_mem (board (512 * 2 ^ 20) 74 1 true) boot).memblock =
      boot.memblock ++ [⟨0, 128 * 2 ^ 20 - 4096⟩] ∧
    (bcm47xx_prom_highmem_init (board (512 * 2 ^ 20) 74 1 true)
      (prom_init_mem (board (512 * 2 ^ 20) 74 1 true) boot)).tlb.entries.length = 1 :=
  have hlow := board_lowmem_128 (512 * 2 ^ 20) 74 1 true boot (by norm_num [Nat.shiftLeft_eq])
  have h := (C20_lowmem_untrimmed (board (512 * 2 ^ 20) 74 1 true) boot).2 rfl hlow
  ⟨hlow, h.1, by rw [h.2 rfl]; rfl⟩

/-- C17, as the code has it. When `bcm47xx_prom_highmem_init` registers a high
region (BCMA bus, low memory = 128 MiB, a size found that is not zero), its
size and base are each reduced by 4096 if and only if the CPU is the affected
74K, whatever the size found: the size that the code tests is that of the low
memory, which is 128 MiB there. On any other CPU the region is registered as
`{0x88000000, size found}`. -/
theorem C17_high_region_erratum (P : Platform) (s : State)
    (hbus : P.bcm47xx_bus_type = P.BCM47XX_BUS_TYPE_BCMA) (hlow : s.lowmem = 128 <<< 20)
    (h0 : (highmem_size P s.lowmem).1 ≠ 0) :
    (P.cputype = P.CPU_74K →
      (bcm47xx_prom_highmem_init P s).memblock =
        s.memblock ++ [⟨0x88000000 - 4096, (highmem_size P s.lowmem).1 - 4096⟩]) ∧
    (P.cputype ≠ P.CPU_74K →
      (bcm47xx_prom_highmem_init P s).memblock =
        s.memblock ++ [⟨0x88000000, (highmem_size P s.lowmem).1⟩]) := by
  rw [hlow] at h0 ⊢
  have hext := highmem_size_128_nonzero P h0
  have hs : sub32 (highmem_size P (128 <<< 20)).1 0x1000 =
      (highmem_size P (128 <<< 20)).1 - 4096 := sub32_page _ (by omega) (by omega)
  constructor
  · intro hc
    rw [highmem_init_memblock P s hbus hlow, if_neg h0, if_pos hc, hs]
  · intro hc
    rw [highmem_init_memblock P s hbus hlow, if_neg h0, if_neg hc]

/-- C17 at the board with 512 MiB of RAM and a 74K: the size found is 384 MiB
and the region registered is `{0x88000000 - 4096, 384 MiB - 4096}`. -/
theorem C17_high_region_erratum_witness :
    (prom_init_mem (board (512 * 2 ^ 20) 74 1 true) boot).lowmem = 128 <<< 20 ∧
    (highmem_size (board (512 * 2 ^ 20) 74 1 true)
      (prom_init_mem (board (512 * 2 ^ 20) 74 1 true) boot).lowmem).1 ≠ 0 ∧
    (bcm47xx_prom_highmem_init (board (512 * 2 ^ 20) 74 1 true)
      (prom_init_mem (board (512 * 2 ^ 20) 74 1 true) boot)).memblock =
      (prom_init_mem (board (512 * 2 ^ 20) 74 1 true) boot).memblock ++
        [⟨0x88000000 - 4096,
          (highmem_size (board (512 * 2 ^ 20) 74 1 true)
            (prom_init_mem (board (512 * 2 ^ 20) 74 1 true) boot).lowmem).1 - 4096⟩] :=
  have hlow := board_lowmem_128 (512 * 2 ^ 20) 74 1 true boot (by norm_num [Nat.shiftLeft_eq])
  have hsz := highmem_size_no_match (board (512 * 2 ^ 20) 74 1 true)
    (board_high_probe_512 74 1 true (128 <<< 20) (by omega) (by omega))
    (board_high_probe_512 74 1 true (256 <<< 20) (by omega) (by omega))
  have h0 : (highmem_size (board (512 * 2 ^ 20) 74 1 true)
      (prom_init_mem (board (512 * 2 ^ 20) 74 1 true) boot).lowmem).1 ≠ 0 := by
    rw [hlow, hsz]
    norm_num
  ⟨hlow, h0, (C17_high_region_erratum (board (512 * 2 ^ 20) 74 1 true)
    (prom_init_mem (board (512 * 2 ^ 20) 74 1 true) boot) rfl hlow h0).1 rfl⟩

/-- C17 as the spec states it fails. On the board with 512 MiB of RAM and a
74K, on the BCMA bus after `prom_init_mem` sized 128 MiB of low memory, the
size found for the high region is 384 MiB, which is not 128 MiB, and yet the
region registered is `{0x88000000 - 4096, 384 MiB - 4096}` and not
`{0x88000000, 384 MiB}`. -/
theorem C17_counterexample :
    (board (512 * 2 ^ 20) 74 1 true).cputype = (board (512 * 2 ^ 20) 74 1 true).CPU_74K ∧
    (prom_init_mem (board (512 * 2 ^ 20) 74 1 true) boot).lowmem = 128 <<< 20 ∧
    (highmem_size (board (512 * 2 ^ 20) 74 1 true)
      (prom_init_mem (board (512 * 2 ^ 20) 74 1 true) boot).lowmem).1 = 384 * 2 ^ 20 ∧
    (highmem_size (board (512 * 2 ^ 20) 74 1 true)
      (prom_init_mem (board (512 * 2 ^ 20) 74 1 true) boot).lowmem).1 ≠ 128 * 2 ^ 20 ∧
    (bcm47xx_prom_highmem_init (board (512 * 2 ^ 20) 74 1 true)
      (prom_init_mem (board (512 * 2 ^ 20) 74 1 true) boot)).memblock =
      (prom_init_mem (board (512 * 2 ^ 20) 74 1 true) boot).memblock ++
        [⟨0x88000000 - 4096, 384 * 2 ^ 20 - 4096⟩] ∧
    (bcm47xx_prom_highmem_init (board (512 * 2 ^ 20) 74 1 true)
      (prom_init_mem (board (512 * 2 ^ 20) 74 1 true) boot)).memblock ≠
      (prom_init_mem (board (512 * 2 ^ 20) 74 1 true) boot).memblock ++
        [⟨0x88000000, 384 * 2 ^ 20⟩] := by
  have hlow := board_lowmem_128 (512 * 2 ^ 20) 74 1 true boot (by norm_num [Nat.shiftLeft_eq])
  have h128 := board_high_probe_512 74 1 true (128 <<< 20) (by omega) (by omega)
  have h256 := board_high_probe_512 74 1 true (256 <<< 20) (by omega) (by omega)
  have hsz := highmem_size_no_match (board (512 * 2 ^ 20) 74 1 true) h128 h256
  have hmb := highmem_init_memblock_no_match (board (512 * 2 ^ 20) 74 1 true)
    (prom_init_mem (board (512 * 2 ^ 20) 74 1 true) boot) rfl hlow h128 h256
  rw [if_pos (show (board (512 * 2 ^ 20) 74 1 true).cputype =
    (board (512 * 2 ^ 20) 74 1 true).CPU_74K from rfl)] at hmb
  refine ⟨rfl, hlow, ?_, ?_, hmb, ?_⟩
  · rw [hlow]
    exact hsz
  · rw [hlow, hsz]
    norm_num
  · rw [hmb]
    intro h
    have h1 := List.append_cancel_left h
    have h2 := (Region.mk.inj (List.cons.inj h1).1).2
    norm_num at h2

end Prom

namespace Prom

/-! ## The loop of `prom_init_mem`, stride by stride -/

/-- When the strides before `mem + n MiB` neither clamp nor match, and that
stride clamps, the loop leaves `128 << 20`. -/
theorem prom_init_mem_loop_clamp_at (P : Platform) (off : Nat) (n mem : Nat)
    (tr : List Event) (hlt : mem + n * 2 ^ 20 < 128 <<< 20)
    (hbefore : ∀ i, i < n → add32 off (mem + i * 2 ^ 20) < 128 <<< 20 ∧
      P.memcmp P.prom_init (add32 P.prom_init (mem + i * 2 ^ 20)) 32 ≠ 0)
    (hclamp : add32 off (mem + n * 2 ^ 20) ≥ 128 <<< 20) :
    (prom_init_mem_loop P off mem tr).1 = 128 <<< 20 := by
  induction n generalizing mem tr with
  | zero =>
    simp only [Nat.zero_mul, Nat.add_zero] at hlt hclamp
    rw [prom_init_mem_loop_eq, if_pos hlt, if_pos hclamp]
  | succ n ih =>
    have h0 := hbefore 0 (Nat.succ_pos n)
    simp only [Nat.zero_mul, Nat.add_zero] at h0
    have hx : mem < 128 <<< 20 := by omega
    rw [prom_init_mem_loop_eq, if_pos hx, if_neg (by omega), if_neg h0.2, add32_stride mem hx]
    have e1 : ∀ i, mem + 2 ^ 20 + i * 2 ^ 20 = mem + (i + 1) * 2 ^ 20 := by
      intro i
      ring
    exact ih (mem + 2 ^ 20) _ (by rw [e1]; exact hlt)
      (fun i hi => by rw [e1]; exact hbefore (i + 1) (by omega))
      (by rw [e1]; exact hclamp)

/-- When the strides before `mem + n MiB` neither clamp nor match, and that
stride does not clamp, the loop makes the comparison at that stride. -/
theorem prom_init_mem_loop_probe_at (P : Platform) (off : Nat) (n mem : Nat)
    (tr : List Event) (hlt : mem + n * 2 ^ 20 < 128 <<< 20)
    (hbefore : ∀ i, i < n → add32 off (mem + i * 2 ^ 20) < 128 <<< 20 ∧
      P.memcmp P.prom_init (add32 P.prom_init (mem + i * 2 ^ 20)) 32 ≠ 0)
    (hguard : add32 off (mem + n * 2 ^ 20) < 128 <<< 20) :
    Event.memcmp P.prom_init (add32 P.prom_init (mem + n * 2 ^ 20)) 32 ∈
      (prom_init_mem_loop P off mem tr).2 := by
  induction n generalizing mem tr with
  | zero =>
    simp only [Nat.zero_mul, Nat.add_zero] at hlt hguard ⊢
    by_cases hm : P.memcmp P.prom_init (add32 P.prom_init mem) 32 = 0
    · rw [prom_init_mem_loop_eq, if_pos hlt, if_neg (by omega), if_pos hm]
      exact List.mem_append_right _ (List.mem_singleton.mpr rfl)
    · rw [prom_init_mem_loop_eq, if_pos hlt, if_neg (by omega), if_neg hm]
      exact prom_init_mem_loop_keeps P off _ _ _
        (List.mem_append_right _ (List.mem_singleton.mpr rfl))
  | succ n ih =>
    have h0 := hbefore 0 (Nat.succ_pos n)
    simp only [Nat.zero_mul, Nat.add_zero] at h0
    have hx : mem < 128 <<< 20 := by omega
    rw [prom_init_mem_loop_eq, if_pos hx, if_neg (by omega), if_neg h0.2, add32_stride mem hx]
    have e1 : ∀ i, mem + 2 ^ 20 + i * 2 ^ 20 = mem + (i + 1) * 2 ^ 20 := by
      intro i
      ring
    have key := ih (mem + 2 ^ 20)
      (tr ++ [Event.memcmp P.prom_init (add32 P.prom_init mem) 32])
      (by rw [e1]; exact hlt)
      (fun i hi => by rw [e1]; exact hbefore (i + 1) (by omega))
      (by rw [e1]; exact hguard)
    rw [e1] at key
    exact key

/-- When the loop leaves `128 << 20`, either some stride clamped with no
match at the strides before it, or no stride the loop can reach matches. -/
theorem prom_init_mem_loop_128_cases (P : Platform) (off mem : Nat) (tr : List Event)
    (hle : mem ≤ 128 <<< 20) (hdvd : 2 ^ 20 ∣ mem)
    (hres : (prom_init_mem_loop P off mem tr).1 = 128 <<< 20) :
    (∃ m, mem ≤ m ∧ m < 128 <<< 20 ∧ 2 ^ 20 ∣ m ∧ add32 off m ≥ 128 <<< 20 ∧
        ∀ j, mem ≤ j → j < m → 2 ^ 20 ∣ j →
          P.memcmp P.prom_init (add32 P.prom_init j) 32 ≠ 0) ∨
      ∀ j, mem ≤ j → j < 128 <<< 20 → 2 ^ 20 ∣ j →
        P.memcmp P.prom_init (add32 P.prom_init j) 32 ≠ 0 := by
  induction mem, tr using prom_init_mem_loop_induct P off with
  | clamp x tr hx hclamp =>
    exact Or.inl ⟨x, le_refl _, hx, hdvd, hclamp, fun j h1 h2 _ => absurd h1 (by omega)⟩
  | found x tr hx hclamp hm =>
    rw [prom_init_mem_loop_eq, if_pos hx, if_neg hclamp, if_pos hm] at hres
    exact absurd hres (by omega)
  | next x tr hx hclamp hm ih =>
    rw [prom_init_mem_loop_eq, if_pos hx, if_neg hclamp, if_neg hm] at hres
    rw [add32_stride x hx] at ih hres
    have h1 : x + 2 ^ 20 ≤ 128 <<< 20 := by
      obtain ⟨k, hk⟩ := hdvd
      omega
    have hstep : ∀ j, x ≤ j → 2 ^ 20 ∣ j → j = x ∨ x + 2 ^ 20 ≤ j := by
      intro j hj hd
      obtain ⟨k, hk⟩ := hdvd
      obtain ⟨l, hl⟩ := hd
      omega
    rcases ih h1 (Dvd.dvd.add hdvd (dvd_refl _)) hres with ⟨m, a, b, c, d, e⟩ | h
    · refine Or.inl ⟨m, by omega, b, c, d, fun j j1 j2 j3 => ?_⟩
      rcases hstep j j1 j3 with h | h
      · rw [h]
        exact hm
      · exact e j h j2 j3
    · refine Or.inr (fun j j1 j2 j3 => ?_)
      rcases hstep j j1 j3 with h' | h'
      · rw [h']
        exact hm
      · exact h j h' j2 j3
  | done x tr hx =>
    exact Or.inr (fun j h1 h2 _ => absurd h2 (by omega))

/-- A stride the loop can reach is the entry stride plus a whole number of
MiB. -/
theorem low_stride_index (m : Nat) (h : low_stride m) :
    ∃ n, m = 1 <<< 20 + n * 2 ^ 20 := by
  obtain ⟨⟨k, hk⟩, h1, _⟩ := h
  exact ⟨k - 1, by omega⟩

/-- The strides `1 MiB + i MiB` with `i` below the index of a stride are
strides the loop can reach, below that stride. -/
theorem low_stride_before (n i : Nat) (hn : 1 <<< 20 + n * 2 ^ 20 < 128 <<< 20) (hi : i < n) :
    low_stride (1 <<< 20 + i * 2 ^ 20) ∧ 1 <<< 20 + i * 2 ^ 20 < 1 <<< 20 + n * 2 ^ 20 := by
  refine ⟨⟨⟨i + 1, ?_⟩, by omega, by omega⟩, by omega⟩
  have : (1 <<< 20 : Nat) = 2 ^ 20 := by norm_num [Nat.shiftLeft_eq]
  rw [this]
  ring

end Prom

namespace Prom

/-- When the strides before `1 MiB + n MiB` neither clamp nor match, and that
stride clamps, `prom_init_mem` stores `128 << 20` in `lowmem`. -/
theorem prom_init_mem_lowmem_clamp_at (P : Platform) (s : State) (n : Nat)
    (hlt : 1 <<< 20 + n * 2 ^ 20 < 128 <<< 20)
    (hbefore : ∀ i, i < n → add32 (prom_init_mem_off P) (1 <<< 20 + i * 2 ^ 20) < 128 <<< 20 ∧
      P.memcmp P.prom_init (add32 P.prom_init (1 <<< 20 + i * 2 ^ 20)) 32 ≠ 0)
    (hclamp : add32 (prom_init_mem_off P) (1 <<< 20 + n * 2 ^ 20) ≥ 128 <<< 20) :
    (prom_init_mem P s).lowmem = 128 <<< 20 := by
  rw [prom_init_mem_lowmem]
  exact prom_init_mem_loop_clamp_at P _ n (1 <<< 20) [] hlt hbefore hclamp

/-- When the strides before `1 MiB + n MiB` neither clamp nor match, and that
stride does not clamp, the comparison at that stride is one of the calls of
the loop of `prom_init_mem`. -/
theorem low_calls_probe_at (P : Platform) (n : Nat)
    (hlt : 1 <<< 20 + n * 2 ^ 20 < 128 <<< 20)
    (hbefore : ∀ i, i < n → add32 (prom_init_mem_off P) (1 <<< 20 + i * 2 ^ 20) < 128 <<< 20 ∧
      P.memcmp P.prom_init (add32 P.prom_init (1 <<< 20 + i * 2 ^ 20)) 32 ≠ 0)
    (hguard : add32 (prom_init_mem_off P) (1 <<< 20 + n * 2 ^ 20) < 128 <<< 20) :
    Event.memcmp P.prom_init (add32 P.prom_init (1 <<< 20 + n * 2 ^ 20)) 32 ∈ low_calls P :=
  prom_init_mem_loop_probe_at P _ n (1 <<< 20) [] hlt hbefore hguard

/-- The anchor offset of the example board loaded at `anchor`. -/
theorem board_at_off (anchor total cputype bus : Nat) (highmem : Bool) :
    prom_init_mem_off (board_at anchor total cputype bus highmem) =
      anchor % 0x20000000 % 2 ^ 32 := by
  simp only [prom_init_mem_off, board_at, board, WORD]

/-- The example board with 64 MiB of RAM, loaded so that the anchor lies at
offset 64 MiB of the window: the low-memory probe matches exactly at the
multiples of 64 MiB. -/
theorem board_at_low_probe_64 (cputype bus : Nat) (highmem : Bool) (m : Nat) :
    low_probe (board_at 0x84000000 (64 * 2 ^ 20) cputype bus highmem) m = true ↔
      64 * 2 ^ 20 ∣ m := by
  unfold low_probe
  rw [decide_eq_true_eq]
  simp only [board_at, board]
  unfold add32 WORD
  constructor
  · intro h
    by_contra hd
    rw [if_neg (by omega)] at h
    exact absurd h (by decide)
  · intro hd
    rw [if_pos (by omega)]

/-- C15, as the code has it. For every probe oracle and anchor offset `off`,
the low-memory sizer returns the smallest stride `s` (a multiple of 1 MiB,
1 MiB <= s < 128 MiB) at which the probe matches, provided the 32 bytes
compared at `s` lie inside the 128 MiB window (`off + s + 32 <= 128 MiB`).
It returns 128 MiB only when `off + stride`, in the 32-bit word, reaches
128 MiB (`off + stride >= 128 MiB`) at a stride with no match before it, or
when no stride matches. -/
theorem C15_low_sizer_algorithm (P : Platform) (st : State) :
    (∀ s, low_stride s → low_probe P s = true →
      (∀ j, low_stride j → j < s → low_probe P j = false) →
      prom_init_mem_off P + s + 32 ≤ 128 <<< 20 →
      (prom_init_mem P st).lowmem = s) ∧
    ((prom_init_mem P st).lowmem = 128 <<< 20 →
      (∃ m, low_stride m ∧ add32 (prom_init_mem_off P) m ≥ 128 <<< 20 ∧
        ∀ j, low_stride j → j < m → low_probe P j = false) ∨
      ∀ m, low_stride m → low_probe P m = false) := by
  constructor
  · intro s hs hmatch hbefore hoff
    obtain ⟨n, hn⟩ := low_stride_index s hs
    subst hn
    rw [prom_init_mem_lowmem]
    refine prom_init_mem_loop_first_match P _ n (1 <<< 20) [] hs.2.2 (fun i hi => ?_) ?_
      (of_decide_eq_true hmatch)
    · have hb := low_stride_before n i hs.2.2 hi
      refine ⟨?_, of_decide_eq_false (hbefore _ hb.1 hb.2)⟩
      unfold add32 WORD
      omega
    · unfold add32 WORD
      omega
  · intro hres
    rw [prom_init_mem_lowmem] at hres
    rcases prom_init_mem_loop_128_cases P _ (1 <<< 20) [] (by omega)
      (by norm_num [Nat.shiftLeft_eq]) hres with ⟨m, a, b, c, d, e⟩ | h
    · exact Or.inl ⟨m, ⟨c, a, b⟩, d, fun j hj hlt => decide_eq_false (e j hj.2.1 hlt hj.1)⟩
    · exact Or.inr (fun m hm => decide_eq_false (h m hm.2.1 hm.2.2 hm.1))

/-- C15 at the board with 64 MiB of RAM, whose anchor lies at `0x3a5d10`: the
smallest matching stride is 64 MiB, its 32 bytes lie inside the window, and
`lowmem` is 64 MiB. -/
theorem C15_low_sizer_algorithm_witness :
    low_stride (64 * 2 ^ 20) ∧ low_probe (board (64 * 2 ^ 20) 74 1 true) (64 * 2 ^ 20) = true ∧
    prom_init_mem_off (board (64 * 2 ^ 20) 74 1 true) + 64 * 2 ^ 20 + 32 ≤ 128 <<< 20 ∧
    (prom_init_mem (board (64 * 2 ^ 20) 74 1 true) boot).lowmem = 64 * 2 ^ 20 :=
  have hs : low_stride (64 * 2 ^ 20) := ⟨⟨64, by ring⟩, by omega, by omega⟩
  have hm : low_probe (board (64 * 2 ^ 20) 74 1 true) (64 * 2 ^ 20) = true :=
    (board_low_probe_64 74 1 true _).mpr (dvd_refl _)
  have hoff : prom_init_mem_off (board (64 * 2 ^ 20) 74 1 true) + 64 * 2 ^ 20 + 32 ≤
      128 <<< 20 := by
    rw [board_off]
    omega
  ⟨hs, hm, hoff,
    (C15_low_sizer_algorithm (board (64 * 2 ^ 20) 74 1 true) boot).1 (64 * 2 ^ 20) hs hm
      (fun j hj hlt => by
        cases hp : low_probe (board (64 * 2 ^ 20) 74 1 true) j with
        | false => rfl
        | true =>
          have hd := Nat.le_of_dvd (by have := hj.2.1; omega)
            ((board_low_probe_64 74 1 true j).mp hp)
          omega)
      hoff⟩

/-- C15 as the spec states it fails. On the board with 64 MiB of RAM loaded
so that the anchor lies at offset 64 MiB of the window, the smallest stride at
which the probe matches is 64 MiB and `off + 64 MiB` = 128 MiB does not
exceed the window, and yet the sizer returns 128 MiB, not 64 MiB: the guard of
line 84 clamps as soon as `off + mem` reaches 128 MiB. -/
theorem C15_counterexample :
    low_stride (64 * 2 ^ 20) ∧
    low_probe (board_at 0x84000000 (64 * 2 ^ 20) 74 1 true) (64 * 2 ^ 20) = true ∧
    (∀ j, low_stride j → j < 64 * 2 ^ 20 →
      low_probe (board_at 0x84000000 (64 * 2 ^ 20) 74 1 true) j = false) ∧
    prom_init_mem_off (board_at 0x84000000 (64 * 2 ^ 20) 74 1 true) + 64 * 2 ^ 20 ≤
      128 * 2 ^ 20 ∧
    (prom_init_mem (board_at 0x84000000 (64 * 2 ^ 20) 74 1 true) boot).lowmem = 128 * 2 ^ 20 ∧
    (prom_init_mem (board_at 0x84000000 (64 * 2 ^ 20) 74 1 true) boot).lowmem ≠
      64 * 2 ^ 20 := by
  have hoff : prom_init_mem_off (board_at 0x84000000 (64 * 2 ^ 20) 74 1 true) =
      64 * 2 ^ 20 := by
    rw [board_at_off]
    norm_num
  have hno : ∀ j, low_stride j → j < 64 * 2 ^ 20 →
      low_probe (board_at 0x84000000 (64 * 2 ^ 20) 74 1 true) j = false := by
    intro j hj hlt
    cases hp : low_probe (board_at 0x84000000 (64 * 2 ^ 20) 74 1 true) j with
    | false => rfl
    | true =>
      have hd := Nat.le_of_dvd (by have := hj.2.1; omega)
        ((board_at_low_probe_64 74 1 true j).mp hp)
      omega
  have hlow : (prom_init_mem (board_at 0x84000000 (64 * 2 ^ 20) 74 1 true) boot).lowmem =
      128 <<< 20 := by
    refine prom_init_mem_lowmem_clamp_at _ boot 63 (by omega) (fun i hi => ?_) ?_
    · have hb := low_stride_before 63 i (by omega) hi
      refine ⟨?_, of_decide_eq_false (hno _ hb.1 (by omega))⟩
      rw [hoff]
      unfold add32 WORD
      omega
    · rw [hoff]
      unfold add32 WORD
      omega
  refine ⟨⟨⟨64, by ring⟩, by omega, by omega⟩,
    (board_at_low_probe_64 74 1 true _).mpr (dvd_refl _), hno, ?_, ?_, ?_⟩
  · rw [hoff]
    omega
  · rw [hlow]
    norm_num [Nat.shiftLeft_eq]
  · rw [hlow]
    norm_num [Nat.shiftLeft_eq]

end Prom

namespace Prom

/-- On the board with 128 MiB of RAM loaded so that the anchor lies 16 bytes
below offset 4 MiB of the window, the comparison at a stride that keeps the
anchor below 128 MiB finds a difference. -/
theorem board_at_low_probe_128 (cputype bus : Nat) (highmem : Bool) (m : Nat)
    (h0 : 0 < m) (hm : m + 0x3ffff0 < 128 <<< 20) :
    (board_at 0x803ffff0 (128 * 2 ^ 20) cputype bus highmem).memcmp
      (board_at 0x803ffff0 (128 * 2 ^ 20) cputype bus highmem).prom_init
      (add32 (board_at 0x803ffff0 (128 * 2 ^ 20) cputype bus highmem).prom_init m) 32 ≠ 0 := by
  simp only [board_at, board]
  unfold add32 WORD
  rw [if_neg (by omega)]
  decide

/-- C16 fails on the code. On the board with 128 MiB of RAM whose anchor
`prom_init` lies at `0x803ffff0` (offset 4 MiB - 16 of the window), the loop
of `prom_init_mem` reaches the stride 124 MiB, where `off + mem` =
128 MiB - 16 passes the guard of line 84, and compares 32 bytes there: the
last 16 of them lie past the 128 MiB window (`off + mem + 32` > 128 MiB). -/
theorem C16_probe_reads_past_window :
    prom_init_mem_off (board_at 0x803ffff0 (128 * 2 ^ 20) 74 1 true) = 4 * 2 ^ 20 - 16 ∧
    Event.memcmp (board_at 0x803ffff0 (128 * 2 ^ 20) 74 1 true).prom_init
      (add32 (board_at 0x803ffff0 (128 * 2 ^ 20) 74 1 true).prom_init (124 * 2 ^ 20)) 32 ∈
      low_calls (board_at 0x803ffff0 (128 * 2 ^ 20) 74 1 true) ∧
    add32 (prom_init_mem_off (board_at 0x803ffff0 (128 * 2 ^ 20) 74 1 true)) (124 * 2 ^ 20) <
      128 <<< 20 ∧
    ¬ prom_init_mem_off (board_at 0x803ffff0 (128 * 2 ^ 20) 74 1 true) + 124 * 2 ^ 20 + 32 ≤
      128 * 2 ^ 20 := by
  have hoff : prom_init_mem_off (board_at 0x803ffff0 (128 * 2 ^ 20) 74 1 true) =
      4 * 2 ^ 20 - 16 := by
    rw [board_at_off]
    norm_num
  have hcall := low_calls_probe_at (board_at 0x803ffff0 (128 * 2 ^ 20) 74 1 true) 123
    (by omega)
    (fun i hi => by
      constructor
      · rw [hoff]
        unfold add32 WORD
        omega
      · exact board_at_low_probe_128 74 1 true _ (by omega) (by omega))
    (by
      rw [hoff]
      unfold add32 WORD
      omega)
  have e : (1 <<< 20 + 123 * 2 ^ 20 : Nat) = 124 * 2 ^ 20 := by norm_num [Nat.shiftLeft_eq]
  rw [e] at hcall
  refine ⟨hoff, hcall, ?_, ?_⟩
  · rw [hoff]
    unfold add32 WORD
    omega
  · rw [hoff]
    omega

end Prom

namespace Prom

/-! ## The platform name -/

/-- The text of the format `Broadcom BCM%04X`. -/
theorem format_text_hex (arg : Nat) :
    format_text "Broadcom BCM%04X" arg =
      "Broadcom BCM".data ++ conversion_number 16 true true 4 arg := by
  have h : format_text "Broadcom BCM%04X" arg =
      "Broadcom BCM".data ++ (conversion_number 16 true true 4 arg ++ []) := rfl
  rw [h, List.append_nil]

/-- The text of the format `Broadcom BCM%d`. -/
theorem format_text_dec (arg : Nat) :
    format_text "Broadcom BCM%d" arg =
      "Broadcom BCM".data ++ conversion_number 10 false false 0 arg := by
  have h : format_text "Broadcom BCM%d" arg =
      "Broadcom BCM".data ++ (conversion_number 10 false false 0 arg ++ []) := rfl
  rw [h, List.append_nil]

/-- The upper-case digit table holds the upper-case hexadecimal digits. -/
theorem conversion_digits_upper (d : Nat) (h : d < 16) :
    (conversion_digits true).getD d '?' = hex_upper d := by
  interval_cases d <;> rfl

/-- The lower-case digit table starts with the decimal digits. -/
theorem conversion_digits_lower (d : Nat) (h : d < 10) :
    (conversion_digits false).getD d '?' = Nat.digitChar d := by
  interval_cases d <;> rfl

/-- One pass of the digit loop. -/
theorem conversion_digits_rev_succ (base : Nat) (upper : Bool) (fuel num : Nat) :
    conversion_digits_rev base upper (fuel + 1) num =
      (conversion_digits upper).getD (num % base) '?' ::
        (if num / base = 0 then [] else conversion_digits_rev base upper fuel (num / base)) :=
  rfl

/-- The conversion `%04X` of a 16-bit value: its four hexadecimal digits. -/
theorem conversion_number_hex4 (c : Nat) (h : c < 65536) :
    conversion_number 16 true true 4 c =
      [hex_upper (c / 4096), hex_upper (c / 256 % 16), hex_upper (c / 16 % 16),
        hex_upper (c % 16)] := by
  have z : hex_upper 0 = '0' := rfl
  unfold conversion_number
  rw [show (64 : Nat) = 60 + 1 + 1 + 1 + 1 from rfl]
  simp only [conversion_digits_rev_succ, Nat.div_div_eq_div_mul]
  rw [conversion_digits_upper _ (Nat.mod_lt _ (by norm_num)),
    conversion_digits_upper _ (Nat.mod_lt _ (by norm_num)),
    conversion_digits_upper _ (Nat.mod_lt _ (by norm_num)),
    conversion_digits_upper _ (Nat.mod_lt _ (by norm_num))]
  have e4 : c / (16 * 16 * 16 * 16) = 0 := by omega
  have m3 : c / (16 * 16 * 16) % 16 = c / 4096 := by omega
  have m2 : c / (16 * 16) % 16 = c / 256 % 16 := by omega
  rw [e4, m3, m2]
  by_cases h1 : c / 16 = 0
  · have a1 : c / 4096 = 0 := by omega
    have a2 : c / 256 % 16 = 0 := by omega
    have a3 : c / 16 % 16 = 0 := by omega
    rw [if_pos h1, a1, a2, a3, z]
    rfl
  · rw [if_neg h1]
    by_cases h2 : c / (16 * 16) = 0
    · have a1 : c / 4096 = 0 := by omega
      have a2 : c / 256 % 16 = 0 := by omega
      rw [if_pos h2, a1, a2, z]
      rfl
    · rw [if_neg h2]
      by_cases h3 : c / (16 * 16 * 16) = 0
      · have a1 : c / 4096 = 0 := by omega
        rw [if_pos h3, a1, z]
        rfl
      · rw [if_neg h3, if_pos rfl]
        rfl

/-- The decimal digits of a number of five digits. -/
theorem toDigits_five (c : Nat) (h1 : 10000 ≤ c) (h2 : c < 100000) :
    Nat.toDigits 10 c = [Nat.digitChar (c / 10000), Nat.digitChar (c / 1000 % 10),
      Nat.digitChar (c / 100 % 10), Nat.digitChar (c / 10 % 10), Nat.digitChar (c % 10)] := by
  obtain ⟨m, rfl⟩ : ∃ m, c = m + 4 := ⟨c - 4, by omega⟩
  unfold Nat.toDigits
  have e : m + 4 + 1 = m + 1 + 1 + 1 + 1 + 1 := by ring
  rw [e]
  simp only [Nat.toDigitsCore, Nat.div_div_eq_div_mul]
  have e5 : (m + 4) / (10 * 10 * 10 * 10 * 10) = 0 := by omega
  have n1 : ¬ (m + 4) / 10 = 0 := by omega
  have n2 : ¬ (m + 4) / (10 * 10) = 0 := by omega
  have n3 : ¬ (m + 4) / (10 * 10 * 10) = 0 := by omega
  have n4 : ¬ (m + 4) / (10 * 10 * 10 * 10) = 0 := by omega
  have m4 : (m + 4) / (10 * 10 * 10 * 10) % 10 = (m + 4) / 10000 := by omega
  have m3 : (m + 4) / (10 * 10 * 10) % 10 = (m + 4) / 1000 % 10 := by omega
  have m2 : (m + 4) / (10 * 10) % 10 = (m + 4) / 100 % 10 := by omega
  rw [if_neg n1, if_neg n2, if_neg n3, if_neg n4, if_pos e5, m4, m3, m2]

/-- The conversion `%d` of a number of five digits: its decimal digits. -/
theorem conversion_number_dec5 (c : Nat) (h1 : 10000 ≤ c) (h2 : c < 100000) :
    conversion_number 10 false false 0 c = Nat.toDigits 10 c := by
  rw [toDigits_five c h1 h2]
  unfold conversion_number
  rw [show (64 : Nat) = 59 + 1 + 1 + 1 + 1 + 1 from rfl]
  simp only [conversion_digits_rev_succ, Nat.div_div_eq_div_mul]
  rw [conversion_digits_lower _ (Nat.mod_lt _ (by norm_num)),
    conversion_digits_lower _ (Nat.mod_lt _ (by norm_num)),
    conversion_digits_lower _ (Nat.mod_lt _ (by norm_num)),
    conversion_digits_lower _ (Nat.mod_lt _ (by norm_num)),
    conversion_digits_lower _ (Nat.mod_lt _ (by norm_num))]
  have e5 : c / (10 * 10 * 10 * 10 * 10) = 0 := by omega
  have n1 : ¬ c / 10 = 0 := by omega
  have n2 : ¬ c / (10 * 10) = 0 := by omega
  have n3 : ¬ c / (10 * 10 * 10) = 0 := by omega
  have n4 : ¬ c / (10 * 10 * 10 * 10) = 0 := by omega
  have m4 : c / (10 * 10 * 10 * 10) % 10 = c / 10000 := by omega
  have m3 : c / (10 * 10 * 10) % 10 = c / 1000 % 10 := by omega
  have m2 : c / (10 * 10) % 10 = c / 100 % 10 := by omega
  rw [if_neg n1, if_neg n2, if_neg n3, if_neg n4, if_pos e5, m4, m3, m2]
  rfl

/-- The whole text that `bcm47xx_set_system_type` formats for a 16-bit chip
identifier above `0x9999`. -/
theorem system_type_text_dec (c : Nat) (h : c < 2 ^ 16) (hc : c > 0x9999) :
    format_text "Broadcom BCM%d" c = "Broadcom BCM".data ++ Nat.toDigits 10 c := by
  rw [format_text_dec, conversion_number_dec5 c (by omega) (by omega)]

/-- The whole text that `bcm47xx_set_system_type` formats for a chip
identifier up to `0x9999`. -/
theorem system_type_text_hex (c : Nat) (h : c < 2 ^ 16) :
    format_text "Broadcom BCM%04X" c = "Broadcom BCM".data ++
      [hex_upper (c / 4096), hex_upper (c / 256 % 16), hex_upper (c / 16 % 16),
        hex_upper (c % 16)] := by
  rw [format_text_hex, conversion_number_hex4 c (by omega)]

/-- The length of the text that `bcm47xx_set_system_type` formats: 17
characters above `0x9999`, 16 otherwise. -/
theorem system_type_text_length (c : Nat) (h : c < 2 ^ 16) :
    (format_text (if c > 0x9999 then "Broadcom BCM%d" else "Broadcom BCM%04X") c).length =
      if c > 0x9999 then 17 else 16 := by
  by_cases hc : c > 0x9999
  · rw [if_pos hc, if_pos hc, system_type_text_dec c h hc, toDigits_five c (by omega) (by omega)]
    rfl
  · rw [if_neg hc, if_neg hc, system_type_text_hex c h]
    rfl

/-- What `bcm47xx_set_system_type` leaves in the buffer for a 16-bit chip
identifier: the first 19 characters of the formatted text. -/
theorem set_system_type_eq (c : Nat) (h : c < 2 ^ 16) :
    bcm47xx_set_system_type c =
      String.mk ((format_text
        (if c > 0x9999 then "Broadcom BCM%d" else "Broadcom BCM%04X") c).take 19) := by
  unfold bcm47xx_set_system_type snprintf
  rw [Nat.mod_eq_of_lt h]
  rfl

end Prom

namespace Prom

/-- C13. Platform name format: for every 16-bit `chip_id`, after
`bcm47xx_set_system_type chip_id` the string returned by `get_system_type` is
`Broadcom BCM` followed by the decimal digits of `chip_id` when
`chip_id > 0x9999`, and `Broadcom BCM` followed by `chip_id` as exactly four
zero-padded upper-case hexadecimal digits otherwise. -/
theorem C13_system_type_format (chip_id : Nat) (h : chip_id < 2 ^ 16) :
    (chip_id > 0x9999 →
      get_system_type (bcm47xx_set_system_type chip_id) =
        "Broadcom BCM" ++ Nat.repr chip_id) ∧
    (¬ chip_id > 0x9999 →
      get_system_type (bcm47xx_set_system_type chip_id) =
        "Broadcom BCM" ++ String.mk [hex_upper (chip_id / 4096),
          hex_upper (chip_id / 256 % 16), hex_upper (chip_id / 16 % 16),
          hex_upper (chip_id % 16)]) := by
  unfold get_system_type
  rw [set_system_type_eq chip_id h]
  constructor
  · intro hc
    rw [if_pos hc, system_type_text_dec chip_id h hc]
    apply String.ext
    rw [String.data_append, List.take_of_length_le]
    · rfl
    · rw [toDigits_five chip_id (by omega) (by omega)]
      exact Nat.le_of_ble_eq_true rfl
  · intro hc
    rw [if_neg hc, system_type_text_hex chip_id h]
    apply String.ext
    rw [String.data_append, List.take_of_length_le]
    exact Nat.le_of_ble_eq_true rfl

/-- C13 at the chip identifiers `0x4716` and 43224: the names are
`Broadcom BCM4716` and `Broadcom BCM43224`. -/
theorem C13_system_type_format_witness :
    (0x4716 : Nat) < 2 ^ 16 ∧ ¬ (0x4716 : Nat) > 0x9999 ∧
    get_system_type (bcm47xx_set_system_type 0x4716) = "Broadcom BCM4716" ∧
    (43224 : Nat) < 2 ^ 16 ∧ (43224 : Nat) > 0x9999 ∧
    get_system_type (bcm47xx_set_system_type 43224) = "Broadcom BCM43224" :=
  ⟨by norm_num, by norm_num,
    ((C13_system_type_format 0x4716 (by norm_num)).2 (by norm_num)).trans (by decide),
    by norm_num, by norm_num,
    ((C13_system_type_format 43224 (by norm_num)).1 (by norm_num)).trans (by decide)⟩

/-- C14. Platform name fits its buffer: for every 16-bit `chip_id`, the full
name that `bcm47xx_set_system_type` formats has at most 19 characters (17
above `0x9999`, 16 otherwise), so with its terminator it fits the 20-byte
buffer and `snprintf` leaves the whole of it there. -/
theorem C14_system_type_fits (chip_id : Nat) (h : chip_id < 2 ^ 16) :
    (format_text (if chip_id > 0x9999 then "Broadcom BCM%d" else "Broadcom BCM%04X")
        chip_id).length ≤ 19 ∧
    (format_text (if chip_id > 0x9999 then "Broadcom BCM%d" else "Broadcom BCM%04X")
        chip_id).length + 1 ≤ bcm47xx_system_type_size ∧
    (bcm47xx_set_system_type chip_id).data =
      format_text (if chip_id > 0x9999 then "Broadcom BCM%d" else "Broadcom BCM%04X")
        chip_id := by
  have hl := system_type_text_length chip_id h
  have h19 : (format_text (if chip_id > 0x9999 then "Broadcom BCM%d" else "Broadcom BCM%04X")
      chip_id).length ≤ 19 := by
    rw [hl]
    split <;> omega
  refine ⟨h19, ?_, ?_⟩
  · unfold bcm47xx_system_type_size
    omega
  · rw [set_system_type_eq chip_id h]
    exact List.take_of_length_le h19

/-- C14 at the chip identifier 65535, the greatest: the name has 17
characters and is left whole in the buffer. -/
theorem C14_system_type_fits_witness :
    (65535 : Nat) < 2 ^ 16 ∧
    (format_text "Broadcom BCM%d" 65535).length ≤ 19 ∧
    bcm47xx_set_system_type 65535 = "Broadcom BCM65535" :=
  ⟨by norm_num, (C14_system_type_fits 65535 (by norm_num)).1,
    String.ext ((C14_system_type_fits 65535 (by norm_num)).2.2.trans (by decide))⟩

end Prom
